import Mathlib

/-! Verification of `main.go` of resurfaceio/translator.

A shallow embedding of the webhook handler of `main.go` (`jsonBytes`, `handler`)
together with the parts of the Go standard library the handler calls
(`strconv.Atoi`, `http.Header.Set`, `time.Parse` with `time.RFC3339Nano`,
`Time.UnixNano`, `url.Parse`, `json.Unmarshal` into `Message`).

Go strings are byte strings.  The fields of a decoded `Message` are valid UTF-8
(the JSON decoder only produces valid UTF-8), so they are embedded as Lean
`String`s; every byte-level operation of the code (`len`, `s[:3]`, the parsers)
is performed on the UTF-8 encoding `utf8 s`, a list of bytes held as `Nat`s.
Machine integers are `Int`s, wrapped explicitly where the code can overflow.
-/

namespace Translator

/-! ## Bytes -/

/-- A Go string seen as its bytes, each one below 256. -/
abbrev Bytes := List Nat

/-- UTF-8 encoding of one Unicode scalar value. -/
def utf8Char (c : Char) : Bytes :=
  let n := c.toNat
  if n < 0x80 then [n]
  else if n < 0x800 then [0xC0 + n / 0x40, 0x80 + n % 0x40]
  else if n < 0x10000 then [0xE0 + n / 0x1000, 0x80 + n / 0x40 % 0x40, 0x80 + n % 0x40]
  else [0xF0 + n / 0x40000, 0x80 + n / 0x1000 % 0x40, 0x80 + n / 0x40 % 0x40, 0x80 + n % 0x40]

/-- The bytes of a Go string whose text is `s`. -/
def utf8 (s : String) : Bytes :=
  s.data.flatMap utf8Char

/-- Go `'0' <= c && c <= '9'`. -/
def isDigitByte (c : Nat) : Bool :=
  decide (48 ≤ c) && decide (c ≤ 57)

/-- Go `'a' <= c && c <= 'z'`. -/
def isLowerByte (c : Nat) : Bool :=
  decide (97 ≤ c) && decide (c ≤ 122)

/-- Go `'A' <= c && c <= 'Z'`. -/
def isUpperByte (c : Nat) : Bool :=
  decide (65 ≤ c) && decide (c ≤ 90)

/-! ## `strconv.Atoi` (64-bit `int`) -/

/-- Wrap an integer into the range of Go `int64` (two's complement). -/
def wrap64 (x : Int) : Int :=
  (x + 2 ^ 63) % 2 ^ 64 - 2 ^ 63

/-- The digit loop of the fast path of `strconv.Atoi`: `ch -= '0'` in byte arithmetic,
failure when `ch > 9`, otherwise `n = n*10 + int(ch)`. -/
def atoiFastLoop : Bytes → Nat → Option Nat
  | [], n => some n
  | ch :: rest, n =>
    let d := (ch + 256 - 48) % 256
    if d > 9 then none else atoiFastLoop rest (n * 10 + d)

/-- Outcome of `strconv.ParseUint`: a syntax error, a range error, or a value. -/
inductive NumResult where
  | syntaxErr
  | rangeErr
  | ok (n : Nat)
  deriving DecidableEq, Repr

/-- The digit loop of `strconv.ParseUint(s, 10, 64)`: `cutoff = maxUint64/10 + 1`,
`maxVal = 1<<64 - 1`. -/
def parseUintLoop : Bytes → Nat → NumResult
  | [], n => .ok n
  | c :: rest, n =>
    if isDigitByte c then
      let d := c - 48
      if n ≥ (2 ^ 64 - 1) / 10 + 1 then .rangeErr
      else
        let n1 := n * 10 + d
        if n1 > 2 ^ 64 - 1 then .rangeErr else parseUintLoop rest n1
    else .syntaxErr

/-- Go `strconv.ParseUint(s, 10, 64)`. -/
def parseUint (s : Bytes) : NumResult :=
  if s = [] then .syntaxErr else parseUintLoop s 0

/-- Go `strconv.ParseInt(s, 10, 0)` with a 64-bit `int`; `none` is a non-nil error. -/
def parseInt (s : Bytes) : Option Int :=
  match s with
  | [] => none
  | c :: rest =>
    let neg := decide (c = 45)
    let body := if c = 43 ∨ c = 45 then rest else s
    match parseUint body with
    | .syntaxErr => none
    | .rangeErr => none
    | .ok un =>
      if !neg ∧ un ≥ 2 ^ 63 then none
      else if neg ∧ un > 2 ^ 63 then none
      else some (if neg then -(un : Int) else (un : Int))

/-- Go `strconv.Atoi` on a platform with 64-bit `int`; `none` is a non-nil error.
Strings of 1 to 18 bytes take the fast path, everything else goes to `ParseInt`. -/
def Atoi (s : Bytes) : Option Int :=
  match s with
  | [] => parseInt s
  | c :: rest =>
    if s.length < 19 then
      let signed := decide (c = 45) || decide (c = 43)
      let digits := if signed then rest else s
      if signed ∧ digits.length < 1 then none
      else
        match atoiFastLoop digits 0 with
        | none => none
        | some n => some (if c = 45 then -(n : Int) else (n : Int))
    else parseInt s

/-! ## `net/http.Header` -/

/-- Go `textproto.validHeaderFieldByte`: the RFC 7230 token bytes
(letters, digits and the marks in the list below). -/
def validHeaderFieldByte (c : Nat) : Bool :=
  isDigitByte c || isLowerByte c || isUpperByte c ||
    [33, 35, 36, 37, 38, 39, 42, 43, 45, 46, 94, 95, 96, 124, 126].contains c

/-- The rewriting loop of `textproto.canonicalMIMEHeaderKey`: upper case for the first
letter and for a letter after a dash, lower case elsewhere; `upper = c == '-'` carries over. -/
def canonLoop : Bool → Bytes → Bytes
  | _, [] => []
  | upper, c :: rest =>
    let c1 :=
      if upper && isLowerByte c then c - 32
      else if !upper && isUpperByte c then c + 32
      else c
    c1 :: canonLoop (c1 == 45) rest

/-- The validity scan of `textproto.canonicalMIMEHeaderKey`: `none` when the key holds an
invalid byte that is not a space (the key is returned unchanged), otherwise whether a
space was seen (`noCanon`). -/
def canonScan : Bytes → Bool → Option Bool
  | [], noCanon => some noCanon
  | c :: rest, noCanon =>
    if validHeaderFieldByte c then canonScan rest noCanon
    else if c = 32 then canonScan rest true
    else none

/-- Go `textproto.canonicalMIMEHeaderKey`; `none` stands for "the key as it was given". -/
def canonicalMIMEHeaderKeyBytes (a : Bytes) : Option Bytes :=
  match canonScan a false with
  | none => none
  | some true => none
  | some false => some (canonLoop true a)

/-- The quick check of `textproto.CanonicalMIMEHeaderKey` over the bytes still to read
(`whole` is the complete key); `none` stands for "the key as it was given". -/
def canonQuick (whole : Bytes) : Bool → Bytes → Option Bytes
  | _, [] => none
  | upper, c :: rest =>
    if !validHeaderFieldByte c then none
    else if upper && isLowerByte c then canonicalMIMEHeaderKeyBytes whole
    else if !upper && isUpperByte c then canonicalMIMEHeaderKeyBytes whole
    else canonQuick whole (c == 45) rest

/-- Go `textproto.CanonicalMIMEHeaderKey`.  A rewritten key consists of token bytes
only, hence of ASCII characters. -/
def CanonicalMIMEHeaderKey (s : String) : String :=
  match canonQuick (utf8 s) true (utf8 s) with
  | none => s
  | some b => String.mk (b.map Char.ofNat)

/-- Go `http.Header`, a `map[string][]string`, as an association list with one entry per
key. -/
abbrev Header := List (String × List String)

/-- Go map assignment `h[k] = vs` on a header. -/
def Header.assign : Header → String → List String → Header
  | [], k, vs => [(k, vs)]
  | (k1, v1) :: rest, k, vs =>
    if k1 = k then (k, vs) :: rest else (k1, v1) :: Header.assign rest k vs

/-- Go map read `h[k]`, the zero value (`nil`) when the key is absent. -/
def Header.index : Header → String → List String
  | [], _ => []
  | (k1, v1) :: rest, k => if k1 = k then v1 else Header.index rest k

/-- Go `http.Header.Set`: `h[CanonicalMIMEHeaderKey(key)] = []string{value}`. -/
def Header.Set (h : Header) (key value : String) : Header :=
  Header.assign h (CanonicalMIMEHeaderKey key) [value]

/-- Go `http.Header.Get`: the first value stored under the canonical form of `key`,
or `""`. -/
def Header.Get (h : Header) (key : String) : String :=
  match Header.index h (CanonicalMIMEHeaderKey key) with
  | [] => ""
  | v :: _ => v

/-! ## `time.Parse(time.RFC3339Nano, _)` and `Time.UnixNano`

The layout `"2006-01-02T15:04:05.999999999Z07:00"` splits into the chunks
`2006`, `-01`, `-02`, `T15`, `:04`, `:05`, `.999999999`, `Z07:00`; the functions below
are the cases of the loop of `time.parse` for these chunks, in this order, as of Go 1.20:
the hour may have one digit, a comma is accepted in place of the period, digits of the
fraction beyond the ninth are dropped, and a zone offset above 24 hours or 60 minutes is
out of range. -/

/-- A Go `time.Time` as far as the handler reads it: seconds since the Unix epoch, the
nanoseconds within that second, and the zone offset it was written with. -/
structure Time where
  unixSec : Int
  nsec : Int
  zoneOffset : Int
  deriving DecidableEq, Repr

/-- Go `time.getnum`: one or two leading digits, two required when `fixed`. -/
def getnum (s : Bytes) (fixed : Bool) : Option (Int × Bytes) :=
  match s with
  | [] => none
  | c0 :: rest =>
    if !isDigitByte c0 then none
    else
      match rest with
      | [] => if fixed then none else some (((c0 - 48 : Nat) : Int), rest)
      | c1 :: rest1 =>
        if !isDigitByte c1 then
          if fixed then none else some (((c0 - 48 : Nat) : Int), rest)
        else some ((((c0 - 48) * 10 + (c1 - 48) : Nat) : Int), rest1)

/-- Go `time.skip` for a one-byte prefix other than a space. -/
def skipByte (value : Bytes) (prefixByte : Nat) : Option Bytes :=
  match value with
  | [] => none
  | c :: rest => if c = prefixByte then some rest else none

/-- Value of a string of decimal digits, `none` when a byte is not a digit
(`time.atoi` on a string that starts with a digit). -/
def digitsValue : Bytes → Nat → Option Nat
  | [], n => some n
  | c :: rest, n => if isDigitByte c then digitsValue rest (n * 10 + (c - 48)) else none

/-- Case `stdLongYear`: four bytes, the first a digit, read by `atoi`. -/
def parseYear (value : Bytes) : Option (Int × Bytes) :=
  match value with
  | c0 :: c1 :: c2 :: c3 :: rest =>
    if !isDigitByte c0 then none
    else
      match digitsValue [c0, c1, c2, c3] 0 with
      | none => none
      | some y => some ((y : Int), rest)
  | _ => none

/-- Go `time.commaOrPeriod`. -/
def commaOrPeriod (c : Nat) : Bool :=
  decide (c = 46) || decide (c = 44)

/-- Go `time.parseNanoseconds(value, nbytes)` where `digits` are the `nbytes - 1` digits
after the separator: at most nine digits are read, then scaled to nanoseconds. -/
def parseNanoseconds (digits : Bytes) : Option Int :=
  let kept := digits.take 9
  match digitsValue kept 0 with
  | none => none
  | some ns => some ((ns * 10 ^ (9 - kept.length) : Nat) : Int)

/-- Case `stdFracSecond9`: the fraction may be omitted; otherwise a comma or period and
all the digits that follow. -/
def parseFrac (value : Bytes) : Option (Int × Bytes) :=
  match value with
  | sep :: d :: rest =>
    if !commaOrPeriod sep || !isDigitByte d then some (0, value)
    else
      let digits := (d :: rest).takeWhile isDigitByte
      match parseNanoseconds digits with
      | none => none
      | some ns => some (ns, (d :: rest).dropWhile isDigitByte)
  | _ => some (0, value)

/-- Case `stdISO8601ColonTZ`: `Z`, or a sign, two digits, a colon and two digits.  The
result is `none` for UTC written as `Z`, else the offset in seconds. -/
def parseZone (value : Bytes) : Option (Option Int × Bytes) :=
  match value with
  | 90 :: rest => some (none, rest)
  | sign :: h0 :: h1 :: colon :: m0 :: m1 :: rest =>
    if colon ≠ 58 then none
    else
      match getnum [h0, h1] true with
      | none => none
      | some (hr, _) =>
        match getnum [m0, m1] true with
        | none => none
        | some (mm, _) =>
          if hr > 24 then none
          else if mm > 60 then none
          else if sign = 43 then some (some ((hr * 60 + mm) * 60), rest)
          else if sign = 45 then some (some (-((hr * 60 + mm) * 60)), rest)
          else none
  | _ => none

/-- Go `time.isLeap`. -/
def isLeap (year : Int) : Bool :=
  decide (year % 4 = 0) && (decide (year % 100 ≠ 0) || decide (year % 400 = 0))

/-- Go `time.daysBefore`: days of a non-leap year before the month with index `m`. -/
def daysBefore (m : Nat) : Int :=
  [0, 31, 59, 90, 120, 151, 181, 212, 243, 273, 304, 334, 365].getD m 0

/-- Go `time.daysIn`. -/
def daysIn (month : Int) (year : Int) : Int :=
  if month = 2 ∧ isLeap year then 29
  else daysBefore month.toNat - daysBefore (month.toNat - 1)

/-- Seconds from 1970-01-01T00:00:00Z to the given civil time read as UTC: the value
`time.Date(..., UTC)` stores, for fields that are already in range.  Days are counted in
the proleptic Gregorian calendar; 719162 days lie between 0001-01-01 and 1970-01-01. -/
def dateUnix (year month day hour min sec : Int) : Int :=
  let y := year - 1
  let days := 365 * y + y / 4 - y / 100 + y / 400
    + daysBefore (month.toNat - 1)
    + (if isLeap year ∧ month ≥ 3 then 1 else 0)
    + (day - 1) - 719162
  days * 86400 + hour * 3600 + min * 60 + sec

/-- Go `time.Parse(time.RFC3339Nano, value)`; `none` is a non-nil error. -/
def timeParse (value : Bytes) : Option Time :=
  match parseYear value with
  | none => none
  | some (year, v1) =>
  match skipByte v1 45 with
  | none => none
  | some v2 =>
  match getnum v2 true with
  | none => none
  | some (month, v3) =>
  if month ≤ 0 ∨ 12 < month then none else
  match skipByte v3 45 with
  | none => none
  | some v4 =>
  match getnum v4 true with
  | none => none
  | some (day, v5) =>
  match skipByte v5 84 with
  | none => none
  | some v6 =>
  match getnum v6 false with
  | none => none
  | some (hour, v7) =>
  if hour < 0 ∨ 24 ≤ hour then none else
  match skipByte v7 58 with
  | none => none
  | some v8 =>
  match getnum v8 true with
  | none => none
  | some (min, v9) =>
  if min < 0 ∨ 60 ≤ min then none else
  match skipByte v9 58 with
  | none => none
  | some v10 =>
  match getnum v10 true with
  | none => none
  | some (sec, v11) =>
  if sec < 0 ∨ 60 ≤ sec then none else
  match parseFrac v11 with
  | none => none
  | some (nsec, v12) =>
  match parseZone v12 with
  | none => none
  | some (zone, v13) =>
  if v13 ≠ [] then none
  else if day < 1 ∨ day > daysIn month year then none
  else
    match zone with
    | none => some ⟨dateUnix year month day hour min sec, nsec, 0⟩
    | some zoneOffset =>
      if zoneOffset ≠ -1 then
        some ⟨dateUnix year month day hour min sec - zoneOffset, nsec, zoneOffset⟩
      else some ⟨dateUnix year month day hour min sec, nsec, 0⟩

/-- Go `Time.UnixNano`: `unixSec*1e9 + nsec` in `int64` arithmetic, which wraps around. -/
def Time.UnixNano (t : Time) : Int :=
  wrap64 (t.unixSec * 1000000000 + t.nsec)

/-- Go `a / b` on `int64` for a positive constant `b`: the quotient truncated toward
zero. -/
def goDiv (a b : Int) : Int :=
  Int.tdiv a b

/-! ## `net/url.Parse` (as of Go 1.19, where `URL.OmitHost` appears) -/

/-- Go `url.Userinfo`. -/
structure Userinfo where
  username : Bytes
  password : Bytes
  passwordSet : Bool
  deriving DecidableEq, Repr

/-- Go `url.URL`. -/
structure URL where
  Scheme : Bytes := []
  Opaque : Bytes := []
  User : Option Userinfo := none
  Host : Bytes := []
  Path : Bytes := []
  RawPath : Bytes := []
  OmitHost : Bool := false
  ForceQuery : Bool := false
  RawQuery : Bytes := []
  Fragment : Bytes := []
  RawFragment : Bytes := []
  deriving DecidableEq, Repr

/-- The `encoding` modes of `net/url`. -/
inductive Encoding where
  | encodePath
  | encodePathSegment
  | encodeHost
  | encodeZone
  | encodeUserPassword
  | encodeQueryComponent
  | encodeFragment
  deriving DecidableEq, Repr

/-- Go `strings.Cut(s, sep)` for a one-byte separator: the text before the first `sep`,
the text after it, and whether `sep` occurs. -/
def cutByte : Bytes → Nat → Bytes × Bytes × Bool
  | [], _ => ([], [], false)
  | c :: rest, sep =>
    if c = sep then ([], rest, true)
    else
      let r := cutByte rest sep
      (c :: r.1, r.2.1, r.2.2)

/-- Go `strings.LastIndex(s, sep)` for a one-byte separator; `none` is `-1`. -/
def lastIndexByte (s : Bytes) (sep : Nat) : Option Nat :=
  match s.reverse.indexOf? sep with
  | none => none
  | some j => some (s.length - 1 - j)

/-- Go `strings.Index(s, pat)`; `none` is `-1`. -/
def indexSub : Bytes → Bytes → Option Nat
  | [], pat => if pat = [] then some 0 else none
  | c :: rest, pat =>
    if pat.isPrefixOf (c :: rest) then some 0
    else (indexSub rest pat).map (· + 1)

/-- Go `url.stringContainsCTLByte`. -/
def stringContainsCTLByte (s : Bytes) : Bool :=
  s.any (fun b => decide (b < 32) || decide (b = 127))

/-- Go `url.ishex`. -/
def ishex (c : Nat) : Bool :=
  isDigitByte c || (decide (97 ≤ c) && decide (c ≤ 102)) ||
    (decide (65 ≤ c) && decide (c ≤ 70))

/-- Go `url.unhex`. -/
def unhex (c : Nat) : Nat :=
  if isDigitByte c then c - 48
  else if 97 ≤ c ∧ c ≤ 102 then c - 97 + 10
  else if 65 ≤ c ∧ c ≤ 70 then c - 65 + 10
  else 0

/-- Go `url.shouldEscape`. -/
def shouldEscape (c : Nat) (mode : Encoding) : Bool :=
  if isLowerByte c || isUpperByte c || isDigitByte c then false
  else if (mode = .encodeHost ∨ mode = .encodeZone) ∧
      [33, 36, 38, 39, 40, 41, 42, 43, 44, 59, 61, 58, 91, 93, 60, 62, 34].contains c then false
  else if [45, 95, 46, 126].contains c then false
  else if [36, 38, 43, 44, 47, 58, 59, 61, 63, 64].contains c ∧ mode = .encodePath then
    decide (c = 63)
  else if [36, 38, 43, 44, 47, 58, 59, 61, 63, 64].contains c ∧ mode = .encodePathSegment then
    decide (c = 47) || decide (c = 59) || decide (c = 44) || decide (c = 63)
  else if [36, 38, 43, 44, 47, 58, 59, 61, 63, 64].contains c ∧ mode = .encodeUserPassword then
    decide (c = 64) || decide (c = 47) || decide (c = 63) || decide (c = 58)
  else if [36, 38, 43, 44, 47, 58, 59, 61, 63, 64].contains c ∧ mode = .encodeQueryComponent then
    true
  else if [36, 38, 43, 44, 47, 58, 59, 61, 63, 64].contains c ∧ mode = .encodeFragment then
    false
  else if mode = .encodeFragment ∧ [33, 40, 41, 42].contains c then false
  else true

/-- The first loop of Go `url.unescape`: whether every `%` starts a well-formed escape
that the mode allows and, for a host or zone, no byte needs escaping. -/
def unescapeValid (mode : Encoding) : Bytes → Bool
  | [] => true
  | 37 :: a :: b :: rest =>
    if !ishex a || !ishex b then false
    else if mode = .encodeHost ∧ unhex a < 8 ∧ [37, a, b] ≠ [37, 50, 53] then false
    else if mode = .encodeZone ∧ [37, a, b] ≠ [37, 50, 53] ∧ unhex a * 16 + unhex b ≠ 32 ∧
        shouldEscape (unhex a * 16 + unhex b) .encodeHost then false
    else unescapeValid mode rest
  | c :: rest =>
    if c = 37 then false
    else if c ≠ 43 ∧ (mode = .encodeHost ∨ mode = .encodeZone) ∧ c < 128 ∧
        shouldEscape c .encodeHost then false
    else unescapeValid mode rest

/-- The second loop of Go `url.unescape`, on a string the first loop accepted. -/
def unescapeBytes (mode : Encoding) : Bytes → Bytes
  | [] => []
  | 37 :: a :: b :: rest => (unhex a * 16 + unhex b) :: unescapeBytes mode rest
  | c :: rest =>
    (if c = 43 ∧ mode = .encodeQueryComponent then 32 else c) :: unescapeBytes mode rest

/-- Go `url.unescape`; `none` is a non-nil error. -/
def unescape (s : Bytes) (mode : Encoding) : Option Bytes :=
  if unescapeValid mode s then some (unescapeBytes mode s) else none

/-- The digit `"0123456789ABCDEF"[n]` of Go `url.upperhex`. -/
def upperhex (n : Nat) : Nat :=
  if n < 10 then 48 + n else 55 + n

/-- Go `url.escape`. -/
def escape (s : Bytes) (mode : Encoding) : Bytes :=
  s.flatMap fun c =>
    if shouldEscape c mode then
      if c = 32 ∧ mode = .encodeQueryComponent then [43]
      else [37, upperhex (c / 16), upperhex (c % 16)]
    else [c]

/-- The loop of Go `url.getScheme` at index `i`, `rest` being `rawURL[i:]`; the result is
the scheme and the text after its colon, `none` is the error "missing protocol scheme". -/
def getSchemeLoop (rawURL : Bytes) : Nat → Bytes → Option (Bytes × Bytes)
  | _, [] => some ([], rawURL)
  | i, c :: rest =>
    if isLowerByte c || isUpperByte c then getSchemeLoop rawURL (i + 1) rest
    else if isDigitByte c || decide (c = 43) || decide (c = 45) || decide (c = 46) then
      if i = 0 then some ([], rawURL) else getSchemeLoop rawURL (i + 1) rest
    else if c = 58 then
      if i = 0 then none else some (rawURL.take i, rest)
    else some ([], rawURL)

/-- Go `url.getScheme`. -/
def getScheme (rawURL : Bytes) : Option (Bytes × Bytes) :=
  getSchemeLoop rawURL 0 rawURL

/-- Go `strings.ToLower` on ASCII text. -/
def toLowerASCII (s : Bytes) : Bytes :=
  s.map fun c => if isUpperByte c then c + 32 else c

/-- Go `url.validOptionalPort`. -/
def validOptionalPort (port : Bytes) : Bool :=
  match port with
  | [] => true
  | c :: rest => decide (c = 58) && rest.all isDigitByte

/-- Go `url.validUserinfo`.  The loop ranges over runes; a rune outside ASCII is
rejected, and so is each byte of its encoding. -/
def validUserinfo (s : Bytes) : Bool :=
  s.all fun r =>
    isUpperByte r || isLowerByte r || isDigitByte r ||
      [45, 46, 95, 58, 126, 33, 36, 38, 39, 40, 41, 42, 43, 44, 59, 61, 37, 64].contains r

/-- Go `url.parseHost`; `none` is a non-nil error. -/
def parseHost (host : Bytes) : Option Bytes :=
  if [91].isPrefixOf host then
    match lastIndexByte host 93 with
    | none => none
    | some i =>
      if !validOptionalPort (host.drop (i + 1)) then none
      else
        match indexSub (host.take i) [37, 50, 53] with
        | some zone =>
          match unescape (host.take zone) .encodeHost with
          | none => none
          | some host1 =>
            match unescape ((host.take i).drop zone) .encodeZone with
            | none => none
            | some host2 =>
              match unescape (host.drop i) .encodeHost with
              | none => none
              | some host3 => some (host1 ++ host2 ++ host3)
        | none => unescape host .encodeHost
  else
    match lastIndexByte host 58 with
    | some i =>
      if !validOptionalPort (host.drop i) then none else unescape host .encodeHost
    | none => unescape host .encodeHost

/-- Go `url.parseAuthority`; `none` is a non-nil error. -/
def parseAuthority (authority : Bytes) : Option (Option Userinfo × Bytes) :=
  match lastIndexByte authority 64 with
  | none =>
    match parseHost authority with
    | none => none
    | some host => some (none, host)
  | some i =>
    match parseHost (authority.drop (i + 1)) with
    | none => none
    | some host =>
      let userinfo := authority.take i
      if !validUserinfo userinfo then none
      else if !userinfo.contains 58 then
        match unescape userinfo .encodeUserPassword with
        | none => none
        | some u => some (some ⟨u, [], false⟩, host)
      else
        let c := cutByte userinfo 58
        match unescape c.1 .encodeUserPassword with
        | none => none
        | some username =>
          match unescape c.2.1 .encodeUserPassword with
          | none => none
          | some password => some (some ⟨username, password, true⟩, host)

/-- Go `(*URL).setPath`; `none` is a non-nil error. -/
def URL.setPath (u : URL) (p : Bytes) : Option URL :=
  match unescape p .encodePath with
  | none => none
  | some path =>
    some { u with Path := path, RawPath := if p = escape path .encodePath then [] else p }

/-- Go `(*URL).setFragment`; `none` is a non-nil error. -/
def URL.setFragment (u : URL) (f : Bytes) : Option URL :=
  match unescape f .encodeFragment with
  | none => none
  | some frag =>
    some { u with
      Fragment := frag, RawFragment := if f = escape frag .encodeFragment then [] else f }

/-- Go `url.parse(rawURL, false)`; `none` is a non-nil error. -/
def urlParseNoFrag (rawURL : Bytes) : Option URL :=
  if stringContainsCTLByte rawURL then none
  else if rawURL = [42] then some { Path := [42] }
  else
    match getScheme rawURL with
    | none => none
    | some (scheme0, rest0) =>
      let scheme := toLowerASCII scheme0
      let forceQuery := decide (rest0.getLast? = some 63) && decide (rest0.count 63 = 1)
      let rest := if forceQuery then rest0.dropLast else (cutByte rest0 63).1
      let rawQuery := if forceQuery then [] else (cutByte rest0 63).2.1
      let url : URL := { Scheme := scheme, ForceQuery := forceQuery, RawQuery := rawQuery }
      if ¬ [47].isPrefixOf rest ∧ scheme ≠ [] then some { url with Opaque := rest }
      else if ¬ [47].isPrefixOf rest ∧ (cutByte rest 47).1.contains 58 then none
      else if (scheme ≠ [] ∨ ¬ [47, 47, 47].isPrefixOf rest) ∧ [47, 47].isPrefixOf rest then
        let afterSlashes := rest.drop 2
        let authority := (cutByte afterSlashes 47).1
        let rest1 := afterSlashes.drop authority.length
        match parseAuthority authority with
        | none => none
        | some (user, host) => URL.setPath { url with User := user, Host := host } rest1
      else if scheme ≠ [] ∧ [47].isPrefixOf rest then
        URL.setPath { url with OmitHost := true } rest
      else URL.setPath url rest

/-- Go `url.Parse`; `none` is a non-nil error. -/
def urlParse (rawURL : Bytes) : Option URL :=
  let c := cutByte rawURL 35
  match urlParseNoFrag c.1 with
  | none => none
  | some url => if c.2.1 = [] then some url else URL.setFragment url c.2.1

/-! ## `encoding/json`: decoding a request body into `Message` -/

/-- A JSON number literal `±mantissa × 10^exp10`. -/
structure JNumber where
  neg : Bool
  mantissa : Nat
  exp10 : Int
  deriving DecidableEq, Repr

/-- A JSON text after scanning: strings are the unquoted text (valid UTF-8), an object
keeps its members in document order, repeated keys included. -/
inductive JSON where
  | null
  | bool (b : Bool)
  | number (n : JNumber)
  | string (s : String)
  | array (items : List JSON)
  | object (members : List (String × JSON))
  deriving Repr

/-- Whether `strconv.ParseFloat(lit, 64)` reports a range error: the literal rounds to an
infinity, that is, its magnitude reaches `2^1024 - 2^970`. -/
def JNumber.overflowsFloat64 (n : JNumber) : Bool :=
  if n.mantissa = 0 then false
  else if 0 ≤ n.exp10 then decide (2 ^ 1024 - 2 ^ 970 ≤ n.mantissa * 10 ^ n.exp10.toNat)
  else decide ((2 ^ 1024 - 2 ^ 970) * 10 ^ (-n.exp10).toNat ≤ n.mantissa)

mutual
/-- Whether decoding the value into an `interface{}` saves an error: some number in it
is out of the range of `float64` (`convertNumber`). -/
def JSON.numberError : JSON → Bool
  | .null => false
  | .bool _ => false
  | .number n => n.overflowsFloat64
  | .string _ => false
  | .array items => JSON.numberErrorList items
  | .object members => JSON.numberErrorMembers members
/-- The elements of an array, see `JSON.numberError`. -/
def JSON.numberErrorList : List JSON → Bool
  | [] => false
  | x :: xs => JSON.numberError x || JSON.numberErrorList xs
/-- The members of an object, see `JSON.numberError`. -/
def JSON.numberErrorMembers : List (String × JSON) → Bool
  | [] => false
  | (_, x) :: xs => JSON.numberError x || JSON.numberErrorMembers xs
end

/-- Go `map[string]string`: an association list with one entry per key.  A `nil` map and
an empty map are both `[]`. -/
abbrev GoMap := List (String × String)

/-- Go map assignment `m[k] = v`. -/
def mapAssign {α : Type} : List (String × α) → String → α → List (String × α)
  | [], k, v => [(k, v)]
  | (k1, v1) :: rest, k, v =>
    if k1 = k then (k, v) :: rest else (k1, v1) :: mapAssign rest k v

/-- The struct `Message` of `main.go`; every field starts at its zero value.  A `nil`
slice and an empty slice are both `[]`; an `interface{}` value is held as the JSON value
it was decoded from. -/
structure Message where
  LogPolicy : String := ""
  Version : String := ""
  Tags : List String := []
  GatewayIp : String := ""
  UriPath : String := ""
  RequestMethod : String := ""
  RequestProtocol : String := ""
  RequestHttpHeaders : List GoMap := []
  RequestBody : String := ""
  Host : String := ""
  HttpUserAgent : String := ""
  QueryString : String := ""
  ClientIp : String := ""
  ImmediateClientIp : String := ""
  StatusCode : String := ""
  ResponseHttpHeaders : List GoMap := []
  ResponseBody : String := ""
  TimeToServeRequest : String := ""
  Datetime : String := ""
  Timestamp : String := ""
  BytesSent : String := ""
  BytesReceived : String := ""
  TransactionId : String := ""
  GlobalTransactionId : String := ""
  LatencyInfo : List GoMap := []
  OpentracingInfo : List JSON := []
  Headers : GoMap := []
  DomainName : String := ""
  EndpointUrl : String := ""
  ApiId : String := ""
  ApiName : String := ""
  ApiVersion : String := ""
  OrgId : String := ""
  OrgName : String := ""
  AppName : String := ""
  ProductName : String := ""
  DeveloperOrgId : String := ""
  DeveloperOrgName : String := ""
  DeveloperOrgTitle : String := ""
  ResourceId : String := ""
  ResourcePath : String := ""
  PlanId : String := ""
  PlanName : String := ""
  CatalogId : String := ""
  CatalogName : String := ""
  ClientId : String := ""
  Billing : List (String × JSON) := []
  deriving Repr

/-- Decode a JSON value into a Go `string` holding `cur`: a string is stored, `null`
leaves the field as it is, anything else saves an `UnmarshalTypeError`.  The result is
the new value and whether an error was saved. -/
def decodeString (cur : String) (v : JSON) : String × Bool :=
  match v with
  | .string s => (s, false)
  | .null => (cur, false)
  | _ => (cur, true)

/-- Decode the members of a JSON object into a `map[string]string`: every member decodes
into a fresh `""` and is then stored under its key. -/
def decodeStringMembers : GoMap → List (String × JSON) → GoMap × Bool
  | mp, [] => (mp, false)
  | mp, (k, v) :: rest =>
    let e := decodeString "" v
    let r := decodeStringMembers (mapAssign mp k e.1) rest
    (r.1, e.2 || r.2)

/-- Decode a JSON value into a `map[string]string` holding `cur`: an object is merged
into the map, `null` sets it to `nil`, anything else saves an error. -/
def decodeStringMap (cur : GoMap) (v : JSON) : GoMap × Bool :=
  match v with
  | .object members => decodeStringMembers cur members
  | .null => ([], false)
  | _ => (cur, true)

/-- Decode a JSON value into an `interface{}` holding `cur`: the value replaces what was
there; a number out of the `float64` range saves an error. -/
def decodeInterface (_cur : JSON) (v : JSON) : JSON × Bool :=
  (v, v.numberError)

/-- Decode the members of a JSON object into a `map[string]interface{}`. -/
def decodeInterfaceMembers :
    List (String × JSON) → List (String × JSON) → List (String × JSON) × Bool
  | mp, [] => (mp, false)
  | mp, (k, v) :: rest =>
    let e := decodeInterface JSON.null v
    let r := decodeInterfaceMembers (mapAssign mp k e.1) rest
    (r.1, e.2 || r.2)

/-- Decode a JSON value into a `map[string]interface{}` holding `cur`. -/
def decodeInterfaceMap (cur : List (String × JSON)) (v : JSON) :
    List (String × JSON) × Bool :=
  match v with
  | .object members => decodeInterfaceMembers cur members
  | .null => ([], false)
  | _ => (cur, true)

/-- The element loop of `(*decodeState).array` on a slice: element `i` of the JSON array
decodes into element `i` of the backing array when there is one (a value left there by an
earlier decode), else into a zero value. -/
def decodeElems {α : Type} (dec : α → JSON → α × Bool) (zero : α) :
    List α → List JSON → List α × Bool
  | _, [] => ([], false)
  | backing, x :: xs =>
    let e := dec (backing.headD zero) x
    let r := decodeElems dec zero backing.tail xs
    (e.1 :: r.1, e.2 || r.2)

/-- Decode a JSON value into a slice holding `cur`, with `spare` the elements an earlier
decode left in the capacity of the slice beyond its length.  An array decodes element by
element over the backing array (an empty one gives a fresh empty slice), `null` sets the
slice to `nil`, anything else saves an error.  The result is the new elements, the new
spare elements, and whether an error was saved. -/
def decodeSlice {α : Type} (dec : α → JSON → α × Bool) (zero : α) (cur spare : List α)
    (v : JSON) : (List α × List α) × Bool :=
  match v with
  | .array items =>
    if items.isEmpty then (([], []), false)
    else
      let r := decodeElems dec zero (cur ++ spare) items
      ((r.1, (cur ++ spare).drop items.length), r.2)
  | .null => (([], []), false)
  | _ => ((cur, spare), true)

/-- One rune of `encoding/json`'s case folding of an object key, written toward lower
case: ASCII letters fold together, the Kelvin sign folds with `k` and the long s with
`s`. -/
def foldRune (c : Char) : Char :=
  if 65 ≤ c.toNat ∧ c.toNat ≤ 90 then Char.ofNat (c.toNat + 32)
  else if c.toNat = 0x212A then 'k'
  else if c.toNat = 0x17F then 's'
  else c

/-- The folded form of an object key; a key selects the field whose (lower-case) JSON
name equals it. -/
def foldName (key : String) : String :=
  String.mk (key.data.map foldRune)

/-- The decoder's view of a `Message` under construction: the struct and, for each slice
field, the elements left in its capacity beyond its length. -/
structure DecodeState where
  m : Message := {}
  spareTags : List String := []
  spareRequest : List GoMap := []
  spareResponse : List GoMap := []
  spareLatency : List GoMap := []
  spareTracing : List JSON := []

/-- Decode one member of the top-level object: the field is found by its JSON name, case
folded; a key that names no field is skipped. -/
def decodeMember (st : DecodeState) (key : String) (v : JSON) : DecodeState × Bool :=
  match foldName key with
  | "log_policy" =>
    let r := decodeString st.m.LogPolicy v
    ({st with m := {st.m with LogPolicy := r.1}}, r.2)
  | "@version" =>
    let r := decodeString st.m.Version v
    ({st with m := {st.m with Version := r.1}}, r.2)
  | "tags" =>
    let r := decodeSlice decodeString "" st.m.Tags st.spareTags v
    ({st with m := {st.m with Tags := r.1.1}, spareTags := r.1.2}, r.2)
  | "gateway_ip" =>
    let r := decodeString st.m.GatewayIp v
    ({st with m := {st.m with GatewayIp := r.1}}, r.2)
  | "uri_path" =>
    let r := decodeString st.m.UriPath v
    ({st with m := {st.m with UriPath := r.1}}, r.2)
  | "request_method" =>
    let r := decodeString st.m.RequestMethod v
    ({st with m := {st.m with RequestMethod := r.1}}, r.2)
  | "request_protocol" =>
    let r := decodeString st.m.RequestProtocol v
    ({st with m := {st.m with RequestProtocol := r.1}}, r.2)
  | "request_http_headers" =>
    let r := decodeSlice decodeStringMap [] st.m.RequestHttpHeaders st.spareRequest v
    ({st with m := {st.m with RequestHttpHeaders := r.1.1}, spareRequest := r.1.2}, r.2)
  | "request_body" =>
    let r := decodeString st.m.RequestBody v
    ({st with m := {st.m with RequestBody := r.1}}, r.2)
  | "host" =>
    let r := decodeString st.m.Host v
    ({st with m := {st.m with Host := r.1}}, r.2)
  | "http_user_agent" =>
    let r := decodeString st.m.HttpUserAgent v
    ({st with m := {st.m with HttpUserAgent := r.1}}, r.2)
  | "query_string" =>
    let r := decodeString st.m.QueryString v
    ({st with m := {st.m with QueryString := r.1}}, r.2)
  | "client_ip" =>
    let r := decodeString st.m.ClientIp v
    ({st with m := {st.m with ClientIp := r.1}}, r.2)
  | "immediate_client_ip" =>
    let r := decodeString st.m.ImmediateClientIp v
    ({st with m := {st.m with ImmediateClientIp := r.1}}, r.2)
  | "status_code" =>
    let r := decodeString st.m.StatusCode v
    ({st with m := {st.m with StatusCode := r.1}}, r.2)
  | "response_http_headers" =>
    let r := decodeSlice decodeStringMap [] st.m.ResponseHttpHeaders st.spareResponse v
    ({st with m := {st.m with ResponseHttpHeaders := r.1.1}, spareResponse := r.1.2}, r.2)
  | "response_body" =>
    let r := decodeString st.m.ResponseBody v
    ({st with m := {st.m with ResponseBody := r.1}}, r.2)
  | "time_to_serve_request" =>
    let r := decodeString st.m.TimeToServeRequest v
    ({st with m := {st.m with TimeToServeRequest := r.1}}, r.2)
  | "datetime" =>
    let r := decodeString st.m.Datetime v
    ({st with m := {st.m with Datetime := r.1}}, r.2)
  | "@timestamp" =>
    let r := decodeString st.m.Timestamp v
    ({st with m := {st.m with Timestamp := r.1}}, r.2)
  | "bytes_sent" =>
    let r := decodeString st.m.BytesSent v
    ({st with m := {st.m with BytesSent := r.1}}, r.2)
  | "bytes_received" =>
    let r := decodeString st.m.BytesReceived v
    ({st with m := {st.m with BytesReceived := r.1}}, r.2)
  | "transaction_id" =>
    let r := decodeString st.m.TransactionId v
    ({st with m := {st.m with TransactionId := r.1}}, r.2)
  | "global_transaction_id" =>
    let r := decodeString st.m.GlobalTransactionId v
    ({st with m := {st.m with GlobalTransactionId := r.1}}, r.2)
  | "latency_info" =>
    let r := decodeSlice decodeStringMap [] st.m.LatencyInfo st.spareLatency v
    ({st with m := {st.m with LatencyInfo := r.1.1}, spareLatency := r.1.2}, r.2)
  | "opentracing_info" =>
    let r := decodeSlice decodeInterface JSON.null st.m.OpentracingInfo st.spareTracing v
    ({st with m := {st.m with OpentracingInfo := r.1.1}, spareTracing := r.1.2}, r.2)
  | "headers" =>
    let r := decodeStringMap st.m.Headers v
    ({st with m := {st.m with Headers := r.1}}, r.2)
  | "domain_name" =>
    let r := decodeString st.m.DomainName v
    ({st with m := {st.m with DomainName := r.1}}, r.2)
  | "endpoint_url" =>
    let r := decodeString st.m.EndpointUrl v
    ({st with m := {st.m with EndpointUrl := r.1}}, r.2)
  | "api_id" =>
    let r := decodeString st.m.ApiId v
    ({st with m := {st.m with ApiId := r.1}}, r.2)
  | "api_name" =>
    let r := decodeString st.m.ApiName v
    ({st with m := {st.m with ApiName := r.1}}, r.2)
  | "api_version" =>
    let r := decodeString st.m.ApiVersion v
    ({st with m := {st.m with ApiVersion := r.1}}, r.2)
  | "org_id" =>
    let r := decodeString st.m.OrgId v
    ({st with m := {st.m with OrgId := r.1}}, r.2)
  | "org_name" =>
    let r := decodeString st.m.OrgName v
    ({st with m := {st.m with OrgName := r.1}}, r.2)
  | "app_name" =>
    let r := decodeString st.m.AppName v
    ({st with m := {st.m with AppName := r.1}}, r.2)
  | "product_name" =>
    let r := decodeString st.m.ProductName v
    ({st with m := {st.m with ProductName := r.1}}, r.2)
  | "developer_org_id" =>
    let r := decodeString st.m.DeveloperOrgId v
    ({st with m := {st.m with DeveloperOrgId := r.1}}, r.2)
  | "developer_org_name" =>
    let r := decodeString st.m.DeveloperOrgName v
    ({st with m := {st.m with DeveloperOrgName := r.1}}, r.2)
  | "developer_org_title" =>
    let r := decodeString st.m.DeveloperOrgTitle v
    ({st with m := {st.m with DeveloperOrgTitle := r.1}}, r.2)
  | "resource_id" =>
    let r := decodeString st.m.ResourceId v
    ({st with m := {st.m with ResourceId := r.1}}, r.2)
  | "resource_path" =>
    let r := decodeString st.m.ResourcePath v
    ({st with m := {st.m with ResourcePath := r.1}}, r.2)
  | "plan_id" =>
    let r := decodeString st.m.PlanId v
    ({st with m := {st.m with PlanId := r.1}}, r.2)
  | "plan_name" =>
    let r := decodeString st.m.PlanName v
    ({st with m := {st.m with PlanName := r.1}}, r.2)
  | "catalog_id" =>
    let r := decodeString st.m.CatalogId v
    ({st with m := {st.m with CatalogId := r.1}}, r.2)
  | "catalog_name" =>
    let r := decodeString st.m.CatalogName v
    ({st with m := {st.m with CatalogName := r.1}}, r.2)
  | "client_id" =>
    let r := decodeString st.m.ClientId v
    ({st with m := {st.m with ClientId := r.1}}, r.2)
  | "billing" =>
    let r := decodeInterfaceMap st.m.Billing v
    ({st with m := {st.m with Billing := r.1}}, r.2)
  | _ => (st, false)

/-- The member loop of `(*decodeState).object` on the struct: all members are decoded,
in document order, and an error saved by one of them does not stop the others. -/
def decodeMembers : DecodeState → List (String × JSON) → DecodeState × Bool
  | st, [] => (st, false)
  | st, (k, v) :: rest =>
    let r := decodeMember st k v
    let rs := decodeMembers r.1 rest
    (rs.1, r.2 || rs.2)

/-- Go `json.Unmarshal(b, &m)` for a body that is the JSON text `v`, `m` being the zero
`Message`: an object fills the fields, `null` changes nothing and is no error, any other
value is an `UnmarshalTypeError`.  The result is `m` and whether `err != nil`. -/
def unmarshal (v : JSON) : Message × Bool :=
  match v with
  | .object members =>
    let r := decodeMembers {} members
    (r.1.m, r.2)
  | .null => ({}, false)
  | _ => ({}, true)

/-- The body of the inbound request, as `jsonBytes` can tell bodies apart. -/
inductive Body where
  /-- Reading the body fails: `io.ReadAll` returns an error. -/
  | readError
  /-- The bytes read are not a JSON text: `json.Unmarshal` returns a `SyntaxError` before
  it stores anything. -/
  | invalid
  /-- The bytes read are the JSON text of `v`. -/
  | json (v : JSON)

/-- The function `jsonBytes` of `main.go`: the decoded message and whether `err != nil`.
On an error the message returned is whatever was decoded so far. -/
def jsonBytes (body : Body) : Message × Bool :=
  match body with
  | .readError => ({}, true)
  | .invalid => ({}, true)
  | .json v => unmarshal v

/-! ## `handler` -/

/-- The synthetic `http.Request` the handler builds: the fields it sets.  `TLS` tells
whether `req.TLS` is non-nil; `Body` is the text the body reader yields. -/
structure Request where
  Method : String
  URL : URL
  Host : String
  TLS : Bool
  Header : Header
  Body : String
  deriving DecidableEq, Repr

/-- The synthetic `http.Response` the handler builds: the fields it sets. -/
structure Response where
  StatusCode : Int
  Header : Header
  Body : String
  deriving DecidableEq, Repr

/-- What the handler does to the outside world, in the order it does it. -/
inductive Effect where
  /-- A call `w.WriteHeader(code)`. -/
  | writeHeader (code : Int)
  /-- A call `log.Println(msg)`. -/
  | logPrintln (msg : String)
  /-- A call `resurfaceio.SendHttpMessage(l, res, req, now, interval, nil)`. -/
  | sendHttpMessage (res : Response) (req : Request) (now : Int) (interval : Int)
  deriving DecidableEq, Repr

/-- One run of the handler: its effects, and whether it ended in a run-time panic instead
of returning. -/
structure Outcome where
  effects : List Effect
  panicked : Bool
  deriving DecidableEq, Repr

/-- The order in which `for k, v := range i` visits the entries of a map, which Go leaves
unspecified: `order response idx mp` lists the entries of `mp`, the map at index `idx` of
the response (`response = true`) or request header list, in the order of that loop. -/
structure RangeOrder where
  order : Bool → Nat → GoMap → GoMap
  perm : ∀ (response : Bool) (idx : Nat) (mp : GoMap), (order response idx mp).Perm mp

/-- The inner loop `for k, v := range i { h.Set(k, v) }` over entries in the order
visited. -/
def setEntries (h : Header) (entries : List (String × String)) : Header :=
  entries.foldl (fun acc kv => Header.Set acc kv.1 kv.2) h

/-- The outer loop `for _, i := range list { for k, v := range i { h.Set(k, v) } }`,
from index `idx` on; `order idx i` is the order in which map `i` is visited. -/
def flattenHeaders (order : Nat → GoMap → GoMap) : Nat → List GoMap → Header → Header
  | _, [], h => h
  | idx, i :: rest, h => flattenHeaders order (idx + 1) rest (setEntries h (order idx i))

/-- The string `rawURL` of the handler. -/
def rawURL (m : Message) : String :=
  m.RequestProtocol ++ "://" ++ m.Host ++ m.UriPath ++ "?" ++ m.QueryString

/-- The message the handler logs when it discards an event. -/
def notLoggedMessage : String :=
  "API Call not logged. Verify that log policy is set to \"payload\""

/-- The function `handler` of `main.go`, from the result `(m, err)` of `jsonBytes` on. -/
def handleMessage (ro : RangeOrder) (m : Message) (err : Bool) : Outcome :=
  let written : List Effect :=
    (if err then [Effect.writeHeader 500] else []) ++ [Effect.writeHeader 200]
  if m.LogPolicy ≠ "payload" then
    ⟨written ++ [Effect.logPrintln notLoggedMessage], false⟩
  else
    match urlParse (utf8 (rawURL m)) with
    | none => ⟨written, false⟩
    | some u =>
      let req : Request :=
        { Method := m.RequestMethod
          URL := u
          Host := m.Host
          TLS := decide (m.RequestProtocol = "https")
          Header := flattenHeaders (ro.order false) 0 m.RequestHttpHeaders []
          Body := m.RequestBody }
      -- `m.StatusCode[:3]` panics when the string has fewer than three bytes
      if (utf8 m.StatusCode).length < 3 then ⟨written, true⟩
      else
        match Atoi ((utf8 m.StatusCode).take 3) with
        | none => ⟨written, false⟩
        | some status =>
          let res : Response :=
            { StatusCode := status
              Header := flattenHeaders (ro.order true) 0 m.ResponseHttpHeaders []
              Body := m.ResponseBody }
          match timeParse (utf8 m.Datetime) with
          | none => ⟨written, false⟩
          | some nowTime =>
            let now := goDiv nowTime.UnixNano 1000000
            match Atoi (utf8 m.TimeToServeRequest) with
            | none => ⟨written, false⟩
            | some interval =>
              ⟨written ++ [Effect.sendHttpMessage res req now interval], false⟩

/-- The function `handler` of `main.go` on a request with the given body. -/
def handler (ro : RangeOrder) (body : Body) : Outcome :=
  let r := jsonBytes body
  handleMessage ro r.1 r.2

/-- The calls of `SendHttpMessage` among the effects, in order. -/
def sends : List Effect → List (Response × Request × Int × Int)
  | [] => []
  | .sendHttpMessage res req now interval :: rest => (res, req, now, interval) :: sends rest
  | _ :: rest => sends rest

/-- The status codes passed to `WriteHeader`, in order. -/
def writtenHeaders : List Effect → List Int
  | [] => []
  | .writeHeader code :: rest => code :: writtenHeaders rest
  | _ :: rest => writtenHeaders rest

/-- The maps of a header list are visited in the order their entries are stored. -/
def storedOrder : RangeOrder :=
  ⟨fun _ _ mp => mp, fun _ _ mp => List.Perm.refl mp⟩

/-- The maps of a header list are visited in the reverse of the order their entries are
stored. -/
def reverseOrder : RangeOrder :=
  ⟨fun _ _ mp => mp.reverse, fun _ _ mp => List.reverse_perm mp⟩

/-! ## Sample inputs -/

/-- The JSON object of a well-formed event, without its `log_policy` member. -/
def sampleMembers : List (String × JSON) :=
  [("request_method", .string "GET"), ("request_protocol", .string "https"),
   ("host", .string "api.example.com"), ("uri_path", .string "/v1/items"),
   ("query_string", .string "page=2"),
   ("request_http_headers",
     .array [.object [("X-A", .string "1")], .object [("x-a", .string "2")]]),
   ("status_code", .string "404 Not Found"),
   ("response_http_headers", .array [.object [("content-type", .string "text/plain")]]),
   ("response_body", .string "missing"),
   ("datetime", .string "2022-01-01T12:00:00.250Z"),
   ("time_to_serve_request", .string "123")]

/-- The body of an admitted event with the given `status_code` and `datetime`, the other
fields well-formed. -/
def eventBody (status datetime : String) : Body :=
  .json (.object
    [("log_policy", .string "payload"), ("request_method", .string "GET"),
     ("request_protocol", .string "http"), ("host", .string "example.com"),
     ("uri_path", .string "/"), ("status_code", .string status),
     ("datetime", .string datetime), ("time_to_serve_request", .string "5")])

/-- The URL of the events built by `eventBody`, as `url.Parse` returns it. -/
def eventURL : URL :=
  { Scheme := utf8 "http", Host := utf8 "example.com", Path := utf8 "/", ForceQuery := true }

/-! ## Notions used to state the properties -/

/-- The lower-case form of an ASCII letter; any other byte is left as it is. -/
def lowerByte (c : Nat) : Nat :=
  if isUpperByte c then c + 32 else c

/-- Two strings are equal up to the case of their ASCII letters. -/
def eqFoldASCII (a b : String) : Bool :=
  decide ((utf8 a).map lowerByte = (utf8 b).map lowerByte)

/-- A header key made of token bytes only, the keys `CanonicalMIMEHeaderKey` rewrites. -/
def tokenKey (k : String) : Bool :=
  (utf8 k).all validHeaderFieldByte

/-- The value of the last entry of the list whose key equals `k` up to ASCII case, `""`
when there is none. -/
def lastValue (entries : List (String × String)) (k : String) : String :=
  match entries.reverse.find? (fun kv => eqFoldASCII kv.1 k) with
  | some kv => kv.2
  | none => ""

/-- A header list of single-entry mappings, one for each key/value pair. -/
def singleEntryMaps (entries : List (String × String)) : List GoMap :=
  entries.map fun kv => [kv]


/-- The body of an admitted event with the given request protocol, host, path and query
string, the other fields well-formed. -/
def requestBody (protocol host path query : String) : Body :=
  .json (.object
    [("log_policy", .string "payload"), ("request_method", .string "GET"),
     ("request_protocol", .string protocol), ("host", .string host),
     ("uri_path", .string path), ("query_string", .string query),
     ("status_code", .string "200"), ("datetime", .string "2022-01-01T12:00:00Z"),
     ("time_to_serve_request", .string "5")])

/-- The body of an admitted event with the given request and response header lists, the
other fields well-formed. -/
def headersBody (requestHeaders responseHeaders : JSON) : Body :=
  .json (.object
    [("log_policy", .string "payload"), ("request_method", .string "GET"),
     ("request_protocol", .string "http"), ("host", .string "example.com"),
     ("uri_path", .string "/"), ("request_http_headers", requestHeaders),
     ("response_http_headers", responseHeaders),
     ("status_code", .string "200"), ("datetime", .string "2022-01-01T12:00:00Z"),
     ("time_to_serve_request", .string "5")])

/-- The body of an admitted event with the given `time_to_serve_request`, the other
fields well-formed. -/
def elapsedBody (elapsed : String) : Body :=
  .json (.object
    [("log_policy", .string "payload"), ("request_method", .string "GET"),
     ("request_protocol", .string "http"), ("host", .string "example.com"),
     ("uri_path", .string "/"), ("status_code", .string "200"),
     ("datetime", .string "2022-01-01T12:00:00Z"),
     ("time_to_serve_request", .string elapsed)])

/-- The integer a string writes in base 10, read off the text and not through the
code: an optional sign `+` or `-` followed by one or more decimal digits; `none` for any
other string. -/
def writtenInteger (s : Bytes) : Option Int :=
  match s with
  | [] => none
  | c :: rest =>
    if c = 43 then
      if rest = [] then none else (digitsValue rest 0).map fun n => (n : Int)
    else if c = 45 then
      if rest = [] then none else (digitsValue rest 0).map fun n => -(n : Int)
    else (digitsValue s 0).map fun n => (n : Int)

/-- The canonical forms of the keys of a map, in the order the entries are stored. -/
def canonicalKeys (mp : GoMap) : List String :=
  mp.map fun kv => CanonicalMIMEHeaderKey kv.1

/-- Two header sets are the same map: every key has the same values in both. -/
def sameHeader (h1 h2 : Header) : Prop :=
  ∀ k : String, Header.index h1 k = Header.index h2 k

/-- Two calls of `SendHttpMessage` have identical arguments: the same response (status,
header set, body), request (method, URL, host, TLS marker, header set, body), timestamp
and duration. -/
def sameCall (c1 c2 : Response × Request × Int × Int) : Prop :=
  c1.1.StatusCode = c2.1.StatusCode ∧ sameHeader c1.1.Header c2.1.Header ∧
  c1.1.Body = c2.1.Body ∧
  c1.2.1.Method = c2.2.1.Method ∧ c1.2.1.URL = c2.2.1.URL ∧ c1.2.1.Host = c2.2.1.Host ∧
  c1.2.1.TLS = c2.2.1.TLS ∧ sameHeader c1.2.1.Header c2.2.1.Header ∧
  c1.2.1.Body = c2.2.1.Body ∧
  c1.2.2.1 = c2.2.2.1 ∧ c1.2.2.2 = c2.2.2.2

/-! ## Notions used to state what the decoder accepts -/

/-- The Go types of the fields of `Message`. -/
inductive FieldType where
  /-- A field of type `string`. -/
  | string
  /-- A field of type `[]string`. -/
  | stringSlice
  /-- A field of type `[]map[string]string`. -/
  | mapSlice
  /-- A field of type `[]interface{}`. -/
  | interfaceSlice
  /-- A field of type `map[string]string`. -/
  | stringMap
  /-- A field of type `map[string]interface{}`. -/
  | interfaceMap
  deriving DecidableEq, Repr

/-- The fields of `Message` by their JSON name (the `json:"..."` tags of the struct),
with their Go type; `none` for a name that is no field. -/
def fieldType (name : String) : Option FieldType :=
  match name with
  | "log_policy" => some .string
  | "@version" => some .string
  | "tags" => some .stringSlice
  | "gateway_ip" => some .string
  | "uri_path" => some .string
  | "request_method" => some .string
  | "request_protocol" => some .string
  | "request_http_headers" => some .mapSlice
  | "request_body" => some .string
  | "host" => some .string
  | "http_user_agent" => some .string
  | "query_string" => some .string
  | "client_ip" => some .string
  | "immediate_client_ip" => some .string
  | "status_code" => some .string
  | "response_http_headers" => some .mapSlice
  | "response_body" => some .string
  | "time_to_serve_request" => some .string
  | "datetime" => some .string
  | "@timestamp" => some .string
  | "bytes_sent" => some .string
  | "bytes_received" => some .string
  | "transaction_id" => some .string
  | "global_transaction_id" => some .string
  | "latency_info" => some .mapSlice
  | "opentracing_info" => some .interfaceSlice
  | "headers" => some .stringMap
  | "domain_name" => some .string
  | "endpoint_url" => some .string
  | "api_id" => some .string
  | "api_name" => some .string
  | "api_version" => some .string
  | "org_id" => some .string
  | "org_name" => some .string
  | "app_name" => some .string
  | "product_name" => some .string
  | "developer_org_id" => some .string
  | "developer_org_name" => some .string
  | "developer_org_title" => some .string
  | "resource_id" => some .string
  | "resource_path" => some .string
  | "plan_id" => some .string
  | "plan_name" => some .string
  | "catalog_id" => some .string
  | "catalog_name" => some .string
  | "client_id" => some .string
  | "billing" => some .interfaceMap
  | _ => none

/-- The value of a field of a `Message`. -/
inductive FieldValue where
  | string (s : String)
  | strings (l : List String)
  | maps (l : List GoMap)
  | interfaces (l : List JSON)
  | map (mp : GoMap)
  | interfaceMap (mp : List (String × JSON))

/-- The value a `Message` holds in the field with the given JSON name; `none` for a name
that is no field. -/
def Message.field (m : Message) (name : String) : Option FieldValue :=
  match name with
  | "log_policy" => some (.string m.LogPolicy)
  | "@version" => some (.string m.Version)
  | "tags" => some (.strings m.Tags)
  | "gateway_ip" => some (.string m.GatewayIp)
  | "uri_path" => some (.string m.UriPath)
  | "request_method" => some (.string m.RequestMethod)
  | "request_protocol" => some (.string m.RequestProtocol)
  | "request_http_headers" => some (.maps m.RequestHttpHeaders)
  | "request_body" => some (.string m.RequestBody)
  | "host" => some (.string m.Host)
  | "http_user_agent" => some (.string m.HttpUserAgent)
  | "query_string" => some (.string m.QueryString)
  | "client_ip" => some (.string m.ClientIp)
  | "immediate_client_ip" => some (.string m.ImmediateClientIp)
  | "status_code" => some (.string m.StatusCode)
  | "response_http_headers" => some (.maps m.ResponseHttpHeaders)
  | "response_body" => some (.string m.ResponseBody)
  | "time_to_serve_request" => some (.string m.TimeToServeRequest)
  | "datetime" => some (.string m.Datetime)
  | "@timestamp" => some (.string m.Timestamp)
  | "bytes_sent" => some (.string m.BytesSent)
  | "bytes_received" => some (.string m.BytesReceived)
  | "transaction_id" => some (.string m.TransactionId)
  | "global_transaction_id" => some (.string m.GlobalTransactionId)
  | "latency_info" => some (.maps m.LatencyInfo)
  | "opentracing_info" => some (.interfaces m.OpentracingInfo)
  | "headers" => some (.map m.Headers)
  | "domain_name" => some (.string m.DomainName)
  | "endpoint_url" => some (.string m.EndpointUrl)
  | "api_id" => some (.string m.ApiId)
  | "api_name" => some (.string m.ApiName)
  | "api_version" => some (.string m.ApiVersion)
  | "org_id" => some (.string m.OrgId)
  | "org_name" => some (.string m.OrgName)
  | "app_name" => some (.string m.AppName)
  | "product_name" => some (.string m.ProductName)
  | "developer_org_id" => some (.string m.DeveloperOrgId)
  | "developer_org_name" => some (.string m.DeveloperOrgName)
  | "developer_org_title" => some (.string m.DeveloperOrgTitle)
  | "resource_id" => some (.string m.ResourceId)
  | "resource_path" => some (.string m.ResourcePath)
  | "plan_id" => some (.string m.PlanId)
  | "plan_name" => some (.string m.PlanName)
  | "catalog_id" => some (.string m.CatalogId)
  | "catalog_name" => some (.string m.CatalogName)
  | "client_id" => some (.string m.ClientId)
  | "billing" => some (.interfaceMap m.Billing)
  | _ => none

/-- A JSON string or `null`, the values a Go `string` accepts. -/
def JSON.isStringOrNull (v : JSON) : Bool :=
  match v with
  | .string _ => true
  | .null => true
  | _ => false

/-- A JSON value a `map[string]string` does not accept: neither `null` nor an object
whose values are all strings or `null`. -/
def JSON.notStringMap (v : JSON) : Bool :=
  match v with
  | .object members => members.any fun kv => !kv.2.isStringOrNull
  | .null => false
  | _ => true

/-- The JSON value does not fit a field of the given Go type: it has another JSON type
than the field (`null` fits every field), or an element or member of it has, or it holds
a number beyond the range of `float64` where the field takes arbitrary values. -/
def typeError (ty : FieldType) (v : JSON) : Bool :=
  match ty, v with
  | .string, v => !v.isStringOrNull
  | .stringSlice, .array items => items.any fun x => !x.isStringOrNull
  | .stringSlice, .null => false
  | .stringSlice, _ => true
  | .mapSlice, .array items => items.any JSON.notStringMap
  | .mapSlice, .null => false
  | .mapSlice, _ => true
  | .interfaceSlice, .array items => items.any JSON.numberError
  | .interfaceSlice, .null => false
  | .interfaceSlice, _ => true
  | .stringMap, v => v.notStringMap
  | .interfaceMap, .object members => members.any fun kv => kv.2.numberError
  | .interfaceMap, .null => false
  | .interfaceMap, _ => true

/-- The member `key: v` of the top-level object names a field (up to the case folding of
keys) that its value does not fit. -/
def memberError (key : String) (v : JSON) : Bool :=
  match fieldType (foldName key) with
  | some ty => typeError ty v
  | none => false

/-- The JSON text cannot be decoded into a `Message` without error: it is neither `null`
nor an object, or it is an object one of whose members names a field that its value does
not fit. -/
def decodeError (v : JSON) : Bool :=
  match v with
  | .object members => members.any fun kv => memberError kv.1 kv.2
  | .null => false
  | _ => true
/-! ## Effects of the handler -/

/-- The calls of `SendHttpMessage` of a run, stage by stage. -/
theorem sends_handleMessage (ro : RangeOrder) (m : Message) (err : Bool) :
    sends (handleMessage ro m err).effects =
      if m.LogPolicy ≠ "payload" then []
      else
        match urlParse (utf8 (rawURL m)) with
        | none => []
        | some u =>
          if (utf8 m.StatusCode).length < 3 then []
          else
            match Atoi ((utf8 m.StatusCode).take 3) with
            | none => []
            | some status =>
              match timeParse (utf8 m.Datetime) with
              | none => []
              | some nowTime =>
                match Atoi (utf8 m.TimeToServeRequest) with
                | none => []
                | some interval =>
                  [(⟨status, flattenHeaders (ro.order true) 0 m.ResponseHttpHeaders [],
                      m.ResponseBody⟩,
                    ⟨m.RequestMethod, u, m.Host, decide (m.RequestProtocol = "https"),
                      flattenHeaders (ro.order false) 0 m.RequestHttpHeaders [], m.RequestBody⟩,
                    goDiv nowTime.UnixNano 1000000, interval)] := by
  cases err <;> by_cases hp : m.LogPolicy = "payload" <;>
    cases hu : urlParse (utf8 (rawURL m)) <;>
    by_cases hl : (utf8 m.StatusCode).length < 3 <;>
    cases hs : Atoi ((utf8 m.StatusCode).take 3) <;>
    cases ht : timeParse (utf8 m.Datetime) <;>
    cases hi : Atoi (utf8 m.TimeToServeRequest) <;>
    simp [handleMessage, sends, hp, hu, hl, hs, ht, hi]

/-- The handler panics exactly at the slice `m.StatusCode[:3]` of a string shorter than
three bytes, which it reaches for an admitted event whose URL parses. -/
theorem panicked_handleMessage (ro : RangeOrder) (m : Message) (err : Bool) :
    (handleMessage ro m err).panicked =
      (decide (m.LogPolicy = "payload") && (urlParse (utf8 (rawURL m))).isSome &&
        decide ((utf8 m.StatusCode).length < 3)) := by
  cases err <;> by_cases hp : m.LogPolicy = "payload" <;>
    cases hu : urlParse (utf8 (rawURL m)) <;>
    by_cases hl : (utf8 m.StatusCode).length < 3 <;>
    cases hs : Atoi ((utf8 m.StatusCode).take 3) <;>
    cases ht : timeParse (utf8 m.Datetime) <;>
    cases hi : Atoi (utf8 m.TimeToServeRequest) <;>
    simp [handleMessage, hp, hu, hl, hs, ht, hi]

/-! ## Policy filter, forwarding and decode failures -/

/-- C1: for every request whose decoded event has a `log_policy` other than exactly
`"payload"`, the handler returns (it does not panic) and never calls
`SendHttpMessage`. -/
theorem handler_discards_other_policy (ro : RangeOrder) (body : Body)
    (h : (jsonBytes body).1.LogPolicy ≠ "payload") :
    (handler ro body).panicked = false ∧ sends (handler ro body).effects = [] := by
  constructor
  · simp [handler, panicked_handleMessage, h]
  · simp [handler, sends_handleMessage, h]

/-- C1 at concrete requests: an event without `log_policy` (the field decodes to `""`)
and an event tagged `"Payload"`, both otherwise well-formed, are discarded. -/
theorem handler_discards_other_policy_witness :
    (jsonBytes (.json (.object sampleMembers))).1.LogPolicy = "" ∧
    ((handler storedOrder (.json (.object sampleMembers))).panicked = false ∧
      sends (handler storedOrder (.json (.object sampleMembers))).effects = []) ∧
    ((handler storedOrder
        (.json (.object (("log_policy", .string "Payload") :: sampleMembers)))).panicked = false ∧
      sends (handler storedOrder
        (.json (.object (("log_policy", .string "Payload") :: sampleMembers)))).effects = []) :=
  ⟨by decide,
   handler_discards_other_policy storedOrder (.json (.object sampleMembers)) (by decide),
   handler_discards_other_policy storedOrder
     (.json (.object (("log_policy", .string "Payload") :: sampleMembers))) (by decide)⟩

/-- C2 fails as stated: the event `{"log_policy": "payload"}` is tagged for full-payload
logging, yet the handler does not call `SendHttpMessage` once (the URL `"://?"` does not
parse). -/
theorem payload_event_not_sent :
    (jsonBytes (.json (.object [("log_policy", .string "payload")]))).1.LogPolicy = "payload" ∧
    (sends (handler storedOrder
      (.json (.object [("log_policy", .string "payload")]))).effects).length ≠ 1 := by
  decide

/-- C2, amended: for every request whose decoded event has `log_policy == "payload"`,
a URL that `url.Parse` accepts, a `status_code` of at least three bytes whose first three
`strconv.Atoi` accepts, a `datetime` that `time.Parse` accepts and a
`time_to_serve_request` that `strconv.Atoi` accepts, the handler returns after calling
`SendHttpMessage` exactly once, with the response (status, headers, body), the request
(method, URL, host, TLS marker, headers, body), the timestamp and the duration built
from the fields of the event. -/
theorem handler_sends_once (ro : RangeOrder) (body : Body) (u : URL) (status : Int)
    (nowTime : Time) (interval : Int)
    (hp : (jsonBytes body).1.LogPolicy = "payload")
    (hu : urlParse (utf8 (rawURL (jsonBytes body).1)) = some u)
    (hl : 3 ≤ (utf8 (jsonBytes body).1.StatusCode).length)
    (hs : Atoi ((utf8 (jsonBytes body).1.StatusCode).take 3) = some status)
    (ht : timeParse (utf8 (jsonBytes body).1.Datetime) = some nowTime)
    (hi : Atoi (utf8 (jsonBytes body).1.TimeToServeRequest) = some interval) :
    (handler ro body).panicked = false ∧
    sends (handler ro body).effects =
      [(⟨status,
          flattenHeaders (ro.order true) 0 (jsonBytes body).1.ResponseHttpHeaders [],
          (jsonBytes body).1.ResponseBody⟩,
        ⟨(jsonBytes body).1.RequestMethod, u, (jsonBytes body).1.Host,
          decide ((jsonBytes body).1.RequestProtocol = "https"),
          flattenHeaders (ro.order false) 0 (jsonBytes body).1.RequestHttpHeaders [],
          (jsonBytes body).1.RequestBody⟩,
        goDiv nowTime.UnixNano 1000000, interval)] := by
  have hl2 : ¬ (utf8 (jsonBytes body).1.StatusCode).length < 3 := by omega
  constructor
  · simp [handler, panicked_handleMessage, hl2]
  · simp [handler, sends_handleMessage, hp, hu, hl2, hs, ht, hi]

/-- C2 (amended) at a concrete request: the sample event tagged `"payload"`. -/
theorem handler_sends_once_witness :
    (handler storedOrder
      (.json (.object (("log_policy", .string "payload") :: sampleMembers)))).panicked = false ∧
    sends (handler storedOrder
      (.json (.object (("log_policy", .string "payload") :: sampleMembers)))).effects =
      [(⟨404, [("Content-Type", ["text/plain"])], "missing"⟩,
        ⟨"GET", { Scheme := utf8 "https", Host := utf8 "api.example.com",
                   Path := utf8 "/v1/items", RawQuery := utf8 "page=2" },
          "api.example.com", true, [("X-A", ["2"])], ""⟩,
        1641038400250, 123)] :=
  handler_sends_once storedOrder
    (.json (.object (("log_policy", .string "payload") :: sampleMembers)))
    { Scheme := utf8 "https", Host := utf8 "api.example.com", Path := utf8 "/v1/items",
      RawQuery := utf8 "page=2" }
    404 ⟨1641038400, 250000000, 0⟩ 123
    (by decide) (by decide) (by decide) (by decide) (by decide) (by decide)

/-- C3, the code at a failing input: for the sample event tagged `"payload"` with the
extra member `"tags": 7`, `jsonBytes` returns an error (a number cannot be decoded into
`[]string`), the handler writes 500 and then 200, and still calls `SendHttpMessage`. -/
theorem decode_error_still_forwarded :
    (jsonBytes (.json (.object
      (("log_policy", .string "payload") :: sampleMembers ++
        [("tags", .number ⟨false, 7, 0⟩)])))).2 = true ∧
    writtenHeaders (handler storedOrder (.json (.object
      (("log_policy", .string "payload") :: sampleMembers ++
        [("tags", .number ⟨false, 7, 0⟩)])))).effects = [500, 200] ∧
    (sends (handler storedOrder (.json (.object
      (("log_policy", .string "payload") :: sampleMembers ++
        [("tags", .number ⟨false, 7, 0⟩)])))).effects).length = 1 := by
  decide

/-! ## Header flattening -/

theorem lowerByte_canonStep (u : Bool) (x : Nat) :
    lowerByte (if u && isLowerByte x then x - 32 else if !u && isUpperByte x then x + 32 else x)
      = lowerByte x := by
  cases u <;> simp only [lowerByte, isLowerByte, isUpperByte, Bool.and_eq_true, decide_eq_true_eq,
    Bool.true_and, Bool.false_and, Bool.not_true, Bool.not_false] <;> split_ifs <;>
    first | omega | contradiction

theorem canonStep_of_lowerByte (u : Bool) (x y : Nat) (h : lowerByte x = lowerByte y) :
    (if u && isLowerByte x then x - 32 else if !u && isUpperByte x then x + 32 else x) =
    (if u && isLowerByte y then y - 32 else if !u && isUpperByte y then y + 32 else y) := by
  revert h
  cases u <;> simp only [lowerByte, isLowerByte, isUpperByte, Bool.and_eq_true, decide_eq_true_eq,
    Bool.true_and, Bool.false_and, Bool.not_true, Bool.not_false] <;> split_ifs <;>
    first | omega | contradiction

theorem canonLoop_eq_iff (u : Bool) (a b : Bytes) :
    canonLoop u a = canonLoop u b ↔ a.map lowerByte = b.map lowerByte := by
  induction a generalizing u b with
  | nil => cases b <;> simp [canonLoop]
  | cons x a ih =>
    cases b with
    | nil => simp [canonLoop]
    | cons y b =>
      simp only [canonLoop, List.cons.injEq, List.map_cons]
      constructor
      · rintro ⟨h1, h2⟩
        refine ⟨?_, ?_⟩
        · rw [← lowerByte_canonStep u x, h1, lowerByte_canonStep]
        · rw [h1] at h2
          exact (ih _ _).1 h2
      · rintro ⟨h1, h2⟩
        have h := canonStep_of_lowerByte u x y h1
        refine ⟨h, ?_⟩
        rw [h]
        exact (ih _ _).2 h2

theorem validHeaderFieldByte_lt (b : Nat) (h : validHeaderFieldByte b = true) : b < 128 := by
  simp only [validHeaderFieldByte, isDigitByte, isLowerByte, isUpperByte, List.contains,
    List.elem, Bool.or_eq_true, Bool.and_eq_true, decide_eq_true_eq] at h
  by_contra hb
  have h128 : 128 ≤ b := by omega
  rcases h with ((h | h) | h) | h
  · omega
  · omega
  · omega
  · have e : ∀ n : Nat, n < 128 → (b == n) = false := by
      intro n hn
      simp only [beq_eq_false_iff_ne, ne_eq]
      omega
    simp [e] at h

theorem validHeaderFieldByte_lowerByte (b : Nat) :
    validHeaderFieldByte (lowerByte b) = validHeaderFieldByte b := by
  by_cases hb : isUpperByte b = true
  · have h1 : 65 ≤ b ∧ b ≤ 90 := by simpa [isUpperByte] using hb
    have h2 : isLowerByte (b + 32) = true := by
      simp only [isLowerByte, Bool.and_eq_true, decide_eq_true_eq]; omega
    simp [lowerByte, hb, validHeaderFieldByte, h2]
  · simp [lowerByte, hb]

theorem utf8Char_ascii (c : Char) (h : c.toNat < 128) : utf8Char c = [c.toNat] := by
  simp [utf8Char, h]

theorem utf8Char_not_ascii (c : Char) (h : 128 ≤ c.toNat) :
    ∃ b bs, utf8Char c = b :: bs ∧ 128 ≤ b := by
  unfold utf8Char
  simp only
  split_ifs
  · omega
  · exact ⟨_, _, rfl, by omega⟩
  · exact ⟨_, _, rfl, by omega⟩
  · exact ⟨_, _, rfl, by omega⟩

theorem flatMap_utf8Char_ascii (cs : List Char)
    (h : ∀ b ∈ cs.flatMap utf8Char, b < 128) : cs.flatMap utf8Char = cs.map Char.toNat := by
  induction cs with
  | nil => rfl
  | cons c cs ih =>
    have hc : c.toNat < 128 := by
      by_contra hc
      obtain ⟨b, bs, hb, hge⟩ := utf8Char_not_ascii c (by omega)
      have := h b (by simp [List.flatMap_cons, hb])
      omega
    have ih2 := ih (fun b hb => h b (by
      simp only [List.flatMap_cons, List.mem_append]; exact Or.inr hb))
    simp [List.flatMap_cons, utf8Char_ascii c hc, ih2]

theorem utf8_of_ascii (s : String) (h : ∀ b ∈ utf8 s, b < 128) :
    utf8 s = s.data.map Char.toNat :=
  flatMap_utf8Char_ascii s.data h

theorem mk_ofNat_utf8 (s : String) (h : ∀ b ∈ utf8 s, b < 128) :
    String.mk ((utf8 s).map Char.ofNat) = s := by
  rw [utf8_of_ascii s h]
  have : (s.data.map Char.toNat).map Char.ofNat = s.data := by
    rw [List.map_map]
    conv_rhs => rw [← List.map_id s.data]
    apply List.map_congr_left
    intro c _
    simp [Char.ofNat_toNat]
  rw [this]

theorem utf8_mk_ofNat (bs : Bytes) (h : ∀ b ∈ bs, b < 128) :
    utf8 (String.mk (bs.map Char.ofNat)) = bs := by
  induction bs with
  | nil => rfl
  | cons b bs ih =>
    have hb : b < 128 := h b (by simp)
    have hv : (Char.ofNat b).toNat = b := by
      have : b.isValidChar := Or.inl (by omega)
      simp [Char.ofNat, this, Char.ofNatAux, Char.toNat, UInt32.toNat]
    have ih2 := ih (fun x hx => h x (by simp [hx]))
    simp only [utf8, List.map_cons, List.flatMap_cons] at ih2 ⊢
    rw [ih2, utf8Char_ascii _ (by omega), hv]
    rfl

theorem canonScan_eq_some_false (bs : Bytes) (nc : Bool) :
    canonScan bs nc = some false ↔ nc = false ∧ bs.all validHeaderFieldByte = true := by
  induction bs generalizing nc with
  | nil => simp [canonScan]
  | cons c rest ih =>
    by_cases hc : validHeaderFieldByte c = true
    · simp [canonScan, hc, ih]
    · by_cases h32 : c = 32
      · subst h32
        simp [canonScan, hc, ih]
      · simp [canonScan, hc, h32]

theorem canonicalMIMEHeaderKeyBytes_valid (bs : Bytes)
    (h : bs.all validHeaderFieldByte = true) :
    canonicalMIMEHeaderKeyBytes bs = some (canonLoop true bs) := by
  have := (canonScan_eq_some_false bs false).2 ⟨rfl, h⟩
  simp [canonicalMIMEHeaderKeyBytes, this]

theorem canonicalMIMEHeaderKeyBytes_invalid (bs : Bytes)
    (h : ¬ bs.all validHeaderFieldByte = true) :
    canonicalMIMEHeaderKeyBytes bs = none := by
  have hne : canonScan bs false ≠ some false := fun e =>
    h ((canonScan_eq_some_false bs false).1 e).2
  unfold canonicalMIMEHeaderKeyBytes
  split
  · rfl
  · rfl
  · rename_i e
    exact absurd e hne

theorem canonQuick_invalid (whole : Bytes) (h : ¬ whole.all validHeaderFieldByte = true)
    (u : Bool) (rest : Bytes) : canonQuick whole u rest = none := by
  induction rest generalizing u with
  | nil => rfl
  | cons c rest ih =>
    simp only [canonQuick, canonicalMIMEHeaderKeyBytes_invalid whole h, ih]
    split_ifs <;> rfl

theorem canonQuick_valid (whole : Bytes) (hw : whole.all validHeaderFieldByte = true)
    (u : Bool) (rest : Bytes) :
    canonQuick whole u rest = some (canonLoop true whole) ∨
      (canonQuick whole u rest = none ∧
        (rest.all validHeaderFieldByte = true → canonLoop u rest = rest)) := by
  induction rest generalizing u with
  | nil => exact Or.inr ⟨rfl, fun _ => rfl⟩
  | cons c rest ih =>
    simp only [canonQuick, canonicalMIMEHeaderKeyBytes_valid whole hw]
    by_cases hc : validHeaderFieldByte c = true
    · by_cases h1 : (u && isLowerByte c) = true
      · simp [hc, h1]
      · by_cases h2 : (!u && isUpperByte c) = true
        · simp [hc, h1, h2]
        · rcases ih (c == 45) with h3 | ⟨h3, h4⟩
          · left
            simp [hc, h1, h2, h3]
          · right
            refine ⟨by simp [hc, h1, h2, h3], fun hall => ?_⟩
            have hr : rest.all validHeaderFieldByte = true := by
              simp only [List.all_cons, Bool.and_eq_true] at hall
              exact hall.2
            simp only [canonLoop, h1, h2]
            simp only [Bool.false_eq_true, if_false]
            rw [h4 hr]
    · right
      exact ⟨by simp [hc], fun hall => by simp [List.all_cons, hc] at hall⟩

theorem tokenKey_lt (k : String) (h : tokenKey k = true) : ∀ b ∈ utf8 k, b < 128 := by
  intro b hb
  have := List.all_eq_true.1 h b hb
  exact validHeaderFieldByte_lt b this

/-- What `CanonicalMIMEHeaderKey` computes: a key of token bytes is rewritten by the case
loop, any other key is returned as it is. -/
theorem canonicalMIMEHeaderKey_eq (k : String) :
    CanonicalMIMEHeaderKey k =
      if tokenKey k then String.mk ((canonLoop true (utf8 k)).map Char.ofNat) else k := by
  by_cases h : tokenKey k = true
  · simp only [h, if_true]
    unfold CanonicalMIMEHeaderKey
    rcases canonQuick_valid (utf8 k) h true (utf8 k) with h1 | ⟨h1, h2⟩
    · rw [h1]
    · rw [h1, h2 h]
      exact (mk_ofNat_utf8 k (tokenKey_lt k h)).symm
  · simp only [h]
    unfold CanonicalMIMEHeaderKey
    rw [canonQuick_invalid (utf8 k) h]
    simp

theorem all_valid_map_lowerByte (bs : Bytes) :
    (bs.map lowerByte).all validHeaderFieldByte = bs.all validHeaderFieldByte := by
  induction bs with
  | nil => rfl
  | cons b bs ih => simp [List.all_cons, validHeaderFieldByte_lowerByte, ih]

theorem canonLoop_valid (u : Bool) (bs : Bytes) :
    (canonLoop u bs).all validHeaderFieldByte = bs.all validHeaderFieldByte := by
  have h : (canonLoop u bs).map lowerByte = bs.map lowerByte := by
    induction bs generalizing u with
    | nil => rfl
    | cons b bs ih =>
      simp only [canonLoop, List.map_cons, lowerByte_canonStep, ih]
  rw [← all_valid_map_lowerByte (canonLoop u bs), h, all_valid_map_lowerByte]

/-- For a query key of token bytes, two keys have the same canonical form exactly when
they are equal up to ASCII case. -/
theorem canonicalMIMEHeaderKey_eq_iff (k1 k : String) (hk : tokenKey k = true) :
    CanonicalMIMEHeaderKey k1 = CanonicalMIMEHeaderKey k ↔ eqFoldASCII k1 k = true := by
  have hB : (canonLoop true (utf8 k)).all validHeaderFieldByte = true := by
    rw [canonLoop_valid]; exact hk
  have hBlt : ∀ b ∈ canonLoop true (utf8 k), b < 128 := fun b hb =>
    validHeaderFieldByte_lt b (List.all_eq_true.1 hB b hb)
  rw [canonicalMIMEHeaderKey_eq k1, canonicalMIMEHeaderKey_eq k]
  simp only [hk, if_true, eqFoldASCII, decide_eq_true_eq]
  by_cases h1 : tokenKey k1 = true
  · have hA : (canonLoop true (utf8 k1)).all validHeaderFieldByte = true := by
      rw [canonLoop_valid]; exact h1
    have hAlt : ∀ b ∈ canonLoop true (utf8 k1), b < 128 := fun b hb =>
      validHeaderFieldByte_lt b (List.all_eq_true.1 hA b hb)
    simp only [h1, if_true]
    rw [← canonLoop_eq_iff true]
    constructor
    · intro e
      have := congrArg utf8 e
      rwa [utf8_mk_ofNat _ hAlt, utf8_mk_ofNat _ hBlt] at this
    · intro e
      rw [e]
  · simp only [h1]
    constructor
    · intro e
      exfalso
      apply h1
      have := congrArg utf8 e
      rw [utf8_mk_ofNat _ hBlt] at this
      simp only [Bool.false_eq_true, if_false] at this
      unfold tokenKey
      rw [this]
      exact hB
    · intro e
      exfalso
      apply h1
      unfold tokenKey
      rw [← all_valid_map_lowerByte, e, all_valid_map_lowerByte]
      exact hk

theorem index_assign (h : Header) (k k1 : String) (vs : List String) :
    Header.index (Header.assign h k vs) k1 = if k = k1 then vs else Header.index h k1 := by
  induction h with
  | nil => simp [Header.assign, Header.index]
  | cons e rest ih =>
    obtain ⟨k0, v0⟩ := e
    by_cases h0 : k0 = k
    · subst h0
      by_cases h1 : k0 = k1 <;> simp [Header.assign, Header.index, h1]
    · by_cases h1 : k0 = k1
      · subst h1
        simp [Header.assign, Header.index, h0, Ne.symm h0]
      · simp [Header.assign, Header.index, h0, h1, ih]

theorem index_setEntries (entries : List (String × String)) (h : Header) (ck : String) :
    Header.index (setEntries h entries) ck =
      match entries.reverse.find? (fun kv => decide (CanonicalMIMEHeaderKey kv.1 = ck)) with
      | some kv => [kv.2]
      | none => Header.index h ck := by
  induction entries generalizing h with
  | nil => simp [setEntries]
  | cons e rest ih =>
    have ih2 := ih (Header.Set h e.1 e.2)
    simp only [setEntries, List.foldl_cons] at ih2 ⊢
    rw [ih2, List.reverse_cons, List.find?_append]
    cases hf : rest.reverse.find? (fun kv => decide (CanonicalMIMEHeaderKey kv.1 = ck)) with
    | some kv => simp
    | none =>
      simp only [Option.none_or, Header.Set, index_assign]
      by_cases hc : CanonicalMIMEHeaderKey e.1 = ck <;> simp [List.find?, hc]

theorem flattenHeaders_single (ro : RangeOrder) (response : Bool)
    (entries : List (String × String)) (idx : Nat) (h : Header) :
    flattenHeaders (ro.order response) idx (singleEntryMaps entries) h = setEntries h entries := by
  induction entries generalizing idx h with
  | nil => rfl
  | cons e rest ih =>
    have hp : ro.order response idx [e] = [e] :=
      List.perm_singleton.1 (ro.perm response idx [e])
    have ih2 := ih (idx + 1) (setEntries h [e])
    simp only [singleEntryMaps, List.map_cons, flattenHeaders, hp] at ih2 ⊢
    rw [ih2]
    simp [setEntries]

/-- C4 fails as stated: for the list `[{"X A": "1"}, {"x a": "2"}]` the last entry whose
key equals `X A` up to case carries `"2"`, but the reconstructed header set resolves
`X A` to `"1"` (a key with a space is not canonicalised, so the two keys stay apart). -/
theorem header_key_with_space_not_merged :
    lastValue [("X A", "1"), ("x a", "2")] "X A" = "2" ∧
    Header.Get (flattenHeaders (storedOrder.order false) 0
      (singleEntryMaps [("X A", "1"), ("x a", "2")]) []) "X A" = "1" := by
  decide

/-- C4, amended: header flattening is last-write-wins per case-insensitive key for keys
made of token bytes.  For every ordered list of single-entry key/value mappings, in the
request and in the response loop and whatever the iteration order of maps, the
reconstructed header set resolves every key of token bytes to the value of the last list
entry whose key equals it up to ASCII case (`""` when there is none). -/
theorem header_flattening_last_wins (ro : RangeOrder) (response : Bool)
    (entries : List (String × String)) (k : String) (hk : tokenKey k = true) :
    Header.Get (flattenHeaders (ro.order response) 0 (singleEntryMaps entries) []) k =
      lastValue entries k := by
  have hfun : (fun kv : String × String =>
      decide (CanonicalMIMEHeaderKey kv.1 = CanonicalMIMEHeaderKey k)) =
      (fun kv => eqFoldASCII kv.1 k) := by
    funext kv
    rw [Bool.eq_iff_iff, decide_eq_true_eq]
    exact canonicalMIMEHeaderKey_eq_iff kv.1 k hk
  rw [flattenHeaders_single]
  unfold Header.Get lastValue
  rw [index_setEntries, hfun]
  cases entries.reverse.find? (fun kv => eqFoldASCII kv.1 k) with
  | some kv => rfl
  | none => rfl

/-- C4 (amended) at the list `[{"X-A": "1"}, {"x-a": "2"}]`: the header `X-A` resolves
to `"2"`. -/
theorem header_flattening_last_wins_witness :
    tokenKey "X-A" = true ∧
    Header.Get (flattenHeaders (storedOrder.order false) 0
      (singleEntryMaps [("X-A", "1"), ("x-a", "2")]) []) "X-A" = "2" :=
  ⟨by decide,
   (header_flattening_last_wins storedOrder false [("X-A", "1"), ("x-a", "2")] "X-A"
     (by decide)).trans (by decide)⟩

/-! ## Status parsing -/

theorem handler_eq (ro : RangeOrder) (body : Body) (m : Message) (err : Bool)
    (hd : jsonBytes body = (m, err)) : handler ro body = handleMessage ro m err := by
  simp [handler, hd]

theorem utf8_cons (c : Char) (cs : List Char) :
    utf8 (String.mk (c :: cs)) = utf8Char c ++ utf8 (String.mk cs) := by
  simp [utf8, List.flatMap_cons]

theorem toNat_lt_of_isDigitByte (c : Nat) (h : isDigitByte c = true) : 48 ≤ c ∧ c ≤ 57 := by
  simpa [isDigitByte] using h

theorem atoiFastLoop_digit (c : Nat) (rest : Bytes) (n : Nat) (h : isDigitByte c = true) :
    atoiFastLoop (c :: rest) n = atoiFastLoop rest (n * 10 + (c - 48)) := by
  have hc := toNat_lt_of_isDigitByte c h
  have e : (c + 256 - 48) % 256 = c - 48 := by omega
  have hle : ¬ (c - 48 > 9) := by omega
  simp only [atoiFastLoop, e, hle, if_false]

theorem atoiFastLoop_not_digit (c : Nat) (rest : Bytes) (n : Nat) (hc : c < 256)
    (h : isDigitByte c = false) : atoiFastLoop (c :: rest) n = none := by
  have hn : ¬ (48 ≤ c ∧ c ≤ 57) := by simpa [isDigitByte] using h
  have hgt : (c + 256 - 48) % 256 > 9 := by omega
  simp only [atoiFastLoop, hgt, if_true]

/-- On three decimal digits `strconv.Atoi` returns the number they write. -/
theorem atoi_three_digits (a b c : Nat) (ha : isDigitByte a = true) (hb : isDigitByte b = true)
    (hc : isDigitByte c = true) :
    Atoi [a, b, c] = some ((100 * (a - 48) + 10 * (b - 48) + (c - 48) : Nat) : Int) := by
  have h1 := toNat_lt_of_isDigitByte a ha
  have na : ¬ a = 45 := by omega
  have nb : ¬ a = 43 := by omega
  have hloop : atoiFastLoop [a, b, c] 0 = some (100 * (a - 48) + 10 * (b - 48) + (c - 48)) := by
    rw [atoiFastLoop_digit _ _ _ ha, atoiFastLoop_digit _ _ _ hb, atoiFastLoop_digit _ _ _ hc]
    simp only [atoiFastLoop]
    congr 1
    ring
  simp only [Atoi, List.length_cons, List.length_nil, na, nb, decide_False, Bool.or_self,
    Bool.false_eq_true, if_false, false_and, hloop]
  simp

/-- C5: for every `status_code` that starts with three decimal digits, whatever text
follows, status parsing (`strconv.Atoi(m.StatusCode[:3])`) yields the integer those three
digits write, and whenever the event reaches the forwarder the handler calls
`SendHttpMessage` once with a response whose numeric status is that integer. -/
theorem status_is_first_three_digits (ro : RangeOrder) (body : Body) (m : Message) (err : Bool)
    (d1 d2 d3 : Char) (rest : List Char)
    (hd : jsonBytes body = (m, err))
    (hs : m.StatusCode = String.mk (d1 :: d2 :: d3 :: rest))
    (h1 : isDigitByte d1.toNat = true) (h2 : isDigitByte d2.toNat = true)
    (h3 : isDigitByte d3.toNat = true) :
    Atoi ((utf8 m.StatusCode).take 3) =
      some ((100 * (d1.toNat - 48) + 10 * (d2.toNat - 48) + (d3.toNat - 48) : Nat) : Int) ∧
    ∀ (u : URL) (nowTime : Time) (interval : Int),
      m.LogPolicy = "payload" →
      urlParse (utf8 (rawURL m)) = some u →
      timeParse (utf8 m.Datetime) = some nowTime →
      Atoi (utf8 m.TimeToServeRequest) = some interval →
      ∃ res req now, sends (handler ro body).effects = [(res, req, now, interval)] ∧
        res.StatusCode =
          ((100 * (d1.toNat - 48) + 10 * (d2.toNat - 48) + (d3.toNat - 48) : Nat) : Int) := by
  have b1 := toNat_lt_of_isDigitByte _ h1
  have b2 := toNat_lt_of_isDigitByte _ h2
  have b3 := toNat_lt_of_isDigitByte _ h3
  have hbytes : utf8 m.StatusCode =
      d1.toNat :: d2.toNat :: d3.toNat :: utf8 (String.mk rest) := by
    rw [hs, utf8_cons, utf8_cons, utf8_cons, utf8Char_ascii d1 (by omega),
      utf8Char_ascii d2 (by omega), utf8Char_ascii d3 (by omega)]
    rfl
  have hlen : ¬ (utf8 m.StatusCode).length < 3 := by
    rw [hbytes]; simp
  have htake : (utf8 m.StatusCode).take 3 = [d1.toNat, d2.toNat, d3.toNat] := by
    rw [hbytes]; rfl
  have hat := atoi_three_digits _ _ _ h1 h2 h3
  refine ⟨by rw [htake, hat], ?_⟩
  intro u nowTime interval hp hu ht hi
  rw [handler_eq ro body m err hd, sends_handleMessage]
  simp only [hp, hu, hlen, htake, hat, ht, hi, ne_eq, not_true_eq_false, if_false]
  exact ⟨_, _, _, rfl, rfl⟩

/-- C5 at the sample event: `"404 Not Found"` yields the status 404. -/
theorem status_is_first_three_digits_witness :
    Atoi ((utf8 "404 Not Found").take 3) = some 404 ∧
    ∃ res req now,
      sends (handler storedOrder
        (.json (.object (("log_policy", .string "payload") :: sampleMembers)))).effects =
        [(res, req, now, 123)] ∧ res.StatusCode = 404 :=
  have h := status_is_first_three_digits storedOrder
    (.json (.object (("log_policy", .string "payload") :: sampleMembers)))
    (jsonBytes (.json (.object (("log_policy", .string "payload") :: sampleMembers)))).1
    (jsonBytes (.json (.object (("log_policy", .string "payload") :: sampleMembers)))).2
    '4' '0' '4' " Not Found".data rfl (by decide) (by decide) (by decide) (by decide)
  ⟨h.1, h.2
    { Scheme := utf8 "https", Host := utf8 "api.example.com", Path := utf8 "/v1/items",
      RawQuery := utf8 "page=2" }
    ⟨1641038400, 250000000, 0⟩ 123 (by decide) (by decide) (by decide) (by decide)⟩

/-- C6, the code on a short status: for every admitted event whose URL parses and whose
`status_code` has fewer than three bytes, the slice `m.StatusCode[:3]` is out of range:
the handler panics instead of returning, before any call of `SendHttpMessage`. -/
theorem short_status_panics (ro : RangeOrder) (body : Body) (m : Message) (err : Bool)
    (u : URL) (hd : jsonBytes body = (m, err)) (hp : m.LogPolicy = "payload")
    (hu : urlParse (utf8 (rawURL m)) = some u) (hs : (utf8 m.StatusCode).length < 3) :
    (handler ro body).panicked = true ∧ sends (handler ro body).effects = [] := by
  rw [handler_eq ro body m err hd]
  constructor
  · simp [panicked_handleMessage, hp, hu, hs]
  · simp [sends_handleMessage, hp, hu, hs]

/-- C6 at the status fields `"4"` and `""`: the handler panics. -/
theorem short_status_panics_witness :
    ((handler storedOrder (eventBody "4" "2022-01-01T12:00:00Z")).panicked = true ∧
      sends (handler storedOrder (eventBody "4" "2022-01-01T12:00:00Z")).effects = []) ∧
    ((handler storedOrder (eventBody "" "2022-01-01T12:00:00Z")).panicked = true ∧
      sends (handler storedOrder (eventBody "" "2022-01-01T12:00:00Z")).effects = []) :=
  ⟨short_status_panics storedOrder (eventBody "4" "2022-01-01T12:00:00Z")
     (jsonBytes (eventBody "4" "2022-01-01T12:00:00Z")).1
     (jsonBytes (eventBody "4" "2022-01-01T12:00:00Z")).2 eventURL rfl
     (by decide) (by decide) (by decide),
   short_status_panics storedOrder (eventBody "" "2022-01-01T12:00:00Z")
     (jsonBytes (eventBody "" "2022-01-01T12:00:00Z")).1
     (jsonBytes (eventBody "" "2022-01-01T12:00:00Z")).2 eventURL rfl
     (by decide) (by decide) (by decide)⟩

theorem char_toNat_lt (c : Char) : c.toNat < 0x110000 := by
  have h := c.valid
  simp only [UInt32.isValidChar, Nat.isValidChar] at h
  simp only [Char.toNat]
  omega

/-- The first byte of the encoding of a character: ASCII characters are their own single
byte, the others start with a byte of 128 or more; every byte is below 256. -/
theorem utf8Char_head (c : Char) :
    ∃ b bs, utf8Char c = b :: bs ∧ (b < 128 → bs = [] ∧ b = c.toNat) ∧
      ∀ x ∈ utf8Char c, x < 256 := by
  have hc := char_toNat_lt c
  unfold utf8Char
  simp only
  split_ifs with h1 h2 h3
  · exact ⟨_, _, rfl, fun _ => ⟨rfl, rfl⟩, by simp; omega⟩
  · refine ⟨_, _, rfl, fun h => by omega, ?_⟩
    simp only [List.mem_cons, List.mem_singleton, List.not_mem_nil, or_false]
    rintro x (rfl | rfl) <;> omega
  · refine ⟨_, _, rfl, fun h => by omega, ?_⟩
    simp only [List.mem_cons, List.mem_singleton, List.not_mem_nil, or_false]
    rintro x (rfl | rfl | rfl) <;> omega
  · refine ⟨_, _, rfl, fun h => by omega, ?_⟩
    simp only [List.mem_cons, List.mem_singleton, List.not_mem_nil, or_false]
    rintro x (rfl | rfl | rfl | rfl) <;> omega

theorem utf8_lt (s : String) : ∀ b ∈ utf8 s, b < 256 := by
  intro b hb
  simp only [utf8, List.mem_flatMap] at hb
  obtain ⟨c, _, hbc⟩ := hb
  obtain ⟨_, _, _, _, h⟩ := utf8Char_head c
  exact h b hbc

theorem atoiFastLoop_none (l : Bytes) (n : Nat) (hlt : ∀ x ∈ l, x < 256)
    (hbad : ∃ x ∈ l, isDigitByte x = false) : atoiFastLoop l n = none := by
  induction l generalizing n with
  | nil => simp at hbad
  | cons c rest ih =>
    cases hc : isDigitByte c with
    | false => exact atoiFastLoop_not_digit c rest n (hlt c (by simp)) hc
    | true =>
      rw [atoiFastLoop_digit c rest n hc]
      apply ih _ (fun x hx => hlt x (by simp [hx]))
      obtain ⟨x, hx, hxd⟩ := hbad
      rcases List.mem_cons.1 hx with rfl | hx
      · rw [hc] at hxd; cases hxd
      · exact ⟨x, hx, hxd⟩

/-- Go `strconv.Atoi` rejects three bytes that are neither three digits nor a sign and two
digits. -/
theorem atoi_three_bytes_none (a b c : Nat) (ha : a < 256) (hb : b < 256) (hc : c < 256)
    (hnd : ¬ (isDigitByte a = true ∧ isDigitByte b = true ∧ isDigitByte c = true))
    (hns : ¬ ((a = 43 ∨ a = 45) ∧ isDigitByte b = true ∧ isDigitByte c = true)) :
    Atoi [a, b, c] = none := by
  by_cases hsign : a = 43 ∨ a = 45
  · have hbc : ∃ x ∈ [b, c], isDigitByte x = false := by
      by_cases h1 : isDigitByte b = true
      · by_cases h2 : isDigitByte c = true
        · exact absurd ⟨hsign, h1, h2⟩ hns
        · exact ⟨c, by simp, by simpa using h2⟩
      · exact ⟨b, by simp, by simpa using h1⟩
    have hl := atoiFastLoop_none [b, c] 0 (by
      intro x hx
      simp only [List.mem_cons, List.mem_singleton, List.not_mem_nil, or_false] at hx
      rcases hx with rfl | rfl <;> assumption) hbc
    rcases hsign with h | h <;> subst h <;> simp [Atoi, hl]
  · have h43 : ¬ a = 43 := fun h => hsign (Or.inl h)
    have h45 : ¬ a = 45 := fun h => hsign (Or.inr h)
    have habc : ∃ x ∈ [a, b, c], isDigitByte x = false := by
      by_cases h0 : isDigitByte a = true
      · by_cases h1 : isDigitByte b = true
        · by_cases h2 : isDigitByte c = true
          · exact absurd ⟨h0, h1, h2⟩ hnd
          · exact ⟨c, by simp, by simpa using h2⟩
        · exact ⟨b, by simp, by simpa using h1⟩
      · exact ⟨a, by simp, by simpa using h0⟩
    have hl := atoiFastLoop_none [a, b, c] 0 (by
      intro x hx
      simp only [List.mem_cons, List.mem_singleton, List.not_mem_nil, or_false] at hx
      rcases hx with rfl | rfl | rfl <;> assumption) habc
    simp [Atoi, h43, h45, hl]

/-- The first three bytes of a string of at least three characters: there are three of
them, and as long as they are ASCII bytes they are the first characters themselves. -/
theorem utf8_take_three (c1 c2 c3 : Char) (rest : List Char) :
    ∃ a b c, (utf8 (String.mk (c1 :: c2 :: c3 :: rest))).take 3 = [a, b, c] ∧
      3 ≤ (utf8 (String.mk (c1 :: c2 :: c3 :: rest))).length ∧
      a < 256 ∧ b < 256 ∧ c < 256 ∧
      (a < 128 → a = c1.toNat ∧ (b < 128 → b = c2.toNat ∧ (c < 128 → c = c3.toNat))) := by
  have hlt := utf8_lt (String.mk (c1 :: c2 :: c3 :: rest))
  obtain ⟨b1, bs1, e1, p1, _⟩ := utf8Char_head c1
  obtain ⟨b2, bs2, e2, p2, _⟩ := utf8Char_head c2
  obtain ⟨b3, bs3, e3, p3, _⟩ := utf8Char_head c3
  have hB : utf8 (String.mk (c1 :: c2 :: c3 :: rest)) =
      b1 :: (bs1 ++ (b2 :: (bs2 ++ (b3 :: (bs3 ++ utf8 (String.mk rest)))))) := by
    rw [utf8_cons, utf8_cons, utf8_cons, e1, e2, e3]
    simp
  rw [hB] at hlt ⊢
  have key : ∀ (l : Bytes) (a b c : Nat), l.take 3 = [a, b, c] → (∀ x ∈ l, x < 256) →
      a < 256 ∧ b < 256 ∧ c < 256 := by
    intro l a b c ht hl
    have hm : ∀ x ∈ [a, b, c], x ∈ l := fun x hx => List.mem_of_mem_take (ht ▸ hx)
    exact ⟨hl a (hm a (by simp)), hl b (hm b (by simp)), hl c (hm c (by simp))⟩
  by_cases h1 : b1 < 128
  · obtain ⟨hn1, hb1⟩ := p1 h1
    subst hn1
    by_cases h2 : b2 < 128
    · obtain ⟨hn2, hb2⟩ := p2 h2
      subst hn2
      have ht : (b1 :: ([] ++ (b2 :: ([] ++ (b3 :: (bs3 ++ utf8 (String.mk rest))))))).take 3
          = [b1, b2, b3] := by simp
      obtain ⟨ha, hb, hc⟩ := key _ _ _ _ ht hlt
      exact ⟨b1, b2, b3, ht, by simp, ha, hb, hc,
        fun _ => ⟨hb1, fun _ => ⟨hb2, fun h => (p3 h).2⟩⟩⟩
    · obtain ⟨t, T, hT⟩ : ∃ t T, bs2 ++ (b3 :: (bs3 ++ utf8 (String.mk rest))) = t :: T := by
        cases bs2 with
        | nil => exact ⟨_, _, rfl⟩
        | cons x xs => exact ⟨_, _, rfl⟩
      rw [hT] at hlt ⊢
      have ht : (b1 :: ([] ++ (b2 :: t :: T))).take 3 = [b1, b2, t] := by simp
      obtain ⟨ha, hb, hc⟩ := key _ _ _ _ ht hlt
      exact ⟨b1, b2, t, ht, by simp, ha, hb, hc,
        fun _ => ⟨hb1, fun h => absurd h h2⟩⟩
  · obtain ⟨x, y, T, hT⟩ : ∃ x y T,
        bs1 ++ (b2 :: (bs2 ++ (b3 :: (bs3 ++ utf8 (String.mk rest))))) = x :: y :: T := by
      cases bs1 with
      | nil =>
        cases bs2 with
        | nil => exact ⟨_, _, _, rfl⟩
        | cons z zs => exact ⟨_, _, _, rfl⟩
      | cons z zs =>
        cases zs with
        | nil => exact ⟨_, _, _, rfl⟩
        | cons w ws => exact ⟨_, _, _, rfl⟩
    rw [hT] at hlt ⊢
    have ht : (b1 :: x :: y :: T).take 3 = [b1, x, y] := by simp
    obtain ⟨ha, hb, hc⟩ := key _ _ _ _ ht hlt
    exact ⟨b1, x, y, ht, by simp, ha, hb, hc, fun h => absurd h h1⟩

/-- C7 fails as stated: the first three characters of the status `"+12"` are not all
decimal digits, yet `strconv.Atoi` accepts them and the handler calls `SendHttpMessage`
with the status 12; likewise `"-40"` is forwarded with the status -40. -/
theorem signed_status_forwarded :
    (sends (handler storedOrder (eventBody "+12" "2022-01-01T12:00:00Z")).effects).map
        (fun call => call.1.StatusCode) = [12] ∧
    (sends (handler storedOrder (eventBody "-40" "2022-01-01T12:00:00Z")).effects).map
        (fun call => call.1.StatusCode) = [-40] := by
  decide

/-- C7, amended: for every `status_code` of at least three characters whose first three
characters are neither three decimal digits nor a sign (`+` or `-`) followed by two
decimal digits, status parsing fails: the handler returns without calling
`SendHttpMessage`. -/
theorem bad_status_not_forwarded (ro : RangeOrder) (body : Body) (m : Message) (err : Bool)
    (c1 c2 c3 : Char) (rest : List Char)
    (hd : jsonBytes body = (m, err))
    (hs : m.StatusCode = String.mk (c1 :: c2 :: c3 :: rest))
    (hnd : ¬ (isDigitByte c1.toNat = true ∧ isDigitByte c2.toNat = true ∧
      isDigitByte c3.toNat = true))
    (hns : ¬ ((c1.toNat = 43 ∨ c1.toNat = 45) ∧ isDigitByte c2.toNat = true ∧
      isDigitByte c3.toNat = true)) :
    Atoi ((utf8 m.StatusCode).take 3) = none ∧
    (handler ro body).panicked = false ∧ sends (handler ro body).effects = [] := by
  obtain ⟨a, b, c, ht, hlen, ha, hb, hc, hchar⟩ := utf8_take_three c1 c2 c3 rest
  rw [← hs] at ht hlen
  have hl : ¬ (utf8 m.StatusCode).length < 3 := by omega
  have hpat : ∀ x : Nat, isDigitByte x = true → x < 128 := fun x hx => by
    have := toNat_lt_of_isDigitByte x hx; omega
  have hnone : Atoi ((utf8 m.StatusCode).take 3) = none := by
    rw [ht]
    apply atoi_three_bytes_none a b c ha hb hc
    · rintro ⟨h1, h2, h3⟩
      obtain ⟨e1, r⟩ := hchar (hpat a h1)
      obtain ⟨e2, r2⟩ := r (hpat b h2)
      have e3 := r2 (hpat c h3)
      exact hnd ⟨e1 ▸ h1, e2 ▸ h2, e3 ▸ h3⟩
    · rintro ⟨h1, h2, h3⟩
      have ha128 : a < 128 := by rcases h1 with h | h <;> omega
      obtain ⟨e1, r⟩ := hchar ha128
      obtain ⟨e2, r2⟩ := r (hpat b h2)
      have e3 := r2 (hpat c h3)
      exact hns ⟨e1 ▸ h1, e2 ▸ h2, e3 ▸ h3⟩
  rw [handler_eq ro body m err hd]
  refine ⟨hnone, ?_, ?_⟩
  · simp [panicked_handleMessage, hl]
  · rw [sends_handleMessage]
    by_cases hp : m.LogPolicy = "payload"
    · cases hu : urlParse (utf8 (rawURL m)) <;> simp [hp, hl, hnone]
    · simp [hp]

/-- C7 (amended) at the status fields `"4x4"` and `"é12"`: nothing is forwarded. -/
theorem bad_status_not_forwarded_witness :
    (Atoi ((utf8 "4x4").take 3) = none ∧
      (handler storedOrder (eventBody "4x4" "2022-01-01T12:00:00Z")).panicked = false ∧
      sends (handler storedOrder (eventBody "4x4" "2022-01-01T12:00:00Z")).effects = []) ∧
    (Atoi ((utf8 "é12").take 3) = none ∧
      (handler storedOrder (eventBody "é12" "2022-01-01T12:00:00Z")).panicked = false ∧
      sends (handler storedOrder (eventBody "é12" "2022-01-01T12:00:00Z")).effects = []) :=
  ⟨bad_status_not_forwarded storedOrder (eventBody "4x4" "2022-01-01T12:00:00Z")
     (jsonBytes (eventBody "4x4" "2022-01-01T12:00:00Z")).1
     (jsonBytes (eventBody "4x4" "2022-01-01T12:00:00Z")).2 '4' 'x' '4' [] rfl
     (by decide) (by decide) (by decide),
   bad_status_not_forwarded storedOrder (eventBody "é12" "2022-01-01T12:00:00Z")
     (jsonBytes (eventBody "é12" "2022-01-01T12:00:00Z")).1
     (jsonBytes (eventBody "é12" "2022-01-01T12:00:00Z")).2 'é' '1' '2' [] rfl
     (by decide) (by decide) (by decide)⟩

/-! ## Timestamps -/

/-- The epoch: `dateUnix` is zero at 1970-01-01T00:00:00. -/
theorem dateUnix_epoch : dateUnix 1970 1 1 0 0 0 = 0 := by decide

/-- A day later in the same month is 86400 seconds later. -/
theorem dateUnix_next_day (y m d h mi s : Int) :
    dateUnix y m (d + 1) h mi s = dateUnix y m d h mi s + 86400 := by
  unfold dateUnix
  ring

/-- The first day of a month comes 86400 seconds after the last day of the month
before it. -/
theorem dateUnix_next_month (y m h mi s : Int) (h1 : 1 ≤ m) (h2 : m < 12) :
    dateUnix y (m + 1) 1 h mi s = dateUnix y m (daysIn m y) h mi s + 86400 := by
  unfold dateUnix daysIn
  interval_cases m <;> cases hl : isLeap y <;> simp [daysBefore, hl] <;> ring

/-- January 1 comes 86400 seconds after December 31 of the year before it. -/
theorem dateUnix_next_year (y h mi s : Int) :
    dateUnix (y + 1) 1 1 h mi s = dateUnix y 12 31 h mi s + 86400 := by
  unfold dateUnix
  cases hl : isLeap y
  · simp only [isLeap, Bool.and_eq_false_imp, Bool.or_eq_false_iff, decide_eq_true_eq,
      decide_eq_false_iff_not, ne_eq, not_not] at hl
    simp [daysBefore]
    omega
  · simp only [isLeap, Bool.and_eq_true, Bool.or_eq_true, decide_eq_true_eq, ne_eq] at hl
    simp [daysBefore]
    omega

theorem wrap64_of_range (x : Int) (h1 : -2 ^ 63 ≤ x) (h2 : x < 2 ^ 63) : wrap64 x = x := by
  unfold wrap64
  norm_num at h1 h2 ⊢
  omega

/-- C8 fails as stated: `"2300-01-01T00:00:00Z"` is accepted and denotes the instant
10413792000000 ms after the epoch, but `UnixNano()` overflows `int64` and the timestamp
passed to `SendHttpMessage` is -8032952073709. -/
theorem far_future_timestamp_wraps :
    ∃ t, timeParse (utf8 "2300-01-01T00:00:00Z") = some t ∧
      Int.tdiv (t.unixSec * 1000000000 + t.nsec) 1000000 = 10413792000000 ∧
      (sends (handler storedOrder (eventBody "200" "2300-01-01T00:00:00Z")).effects).map
        (fun call => call.2.2.1) = [-8032952073709] :=
  ⟨⟨10413792000, 0, 0⟩, by decide, by decide, by decide⟩

/-- C8, amended: for every event that reaches the forwarder and whose `datetime` the
parser accepts as an instant within the `int64` range of nanoseconds around the epoch
(`-2^63 ≤ ns < 2^63`, the years 1678 to 2261), the timestamp passed to `SendHttpMessage`
is the number of nanoseconds between 1970-01-01T00:00:00Z and the instant divided by
`10^6` with the quotient truncated: the whole milliseconds of the instant.  It is a
function of the instant alone, not of the offset the instant was written with. -/
theorem timestamp_is_epoch_millis (ro : RangeOrder) (body : Body) (m : Message) (err : Bool)
    (u : URL) (status : Int) (t : Time) (interval : Int)
    (hd : jsonBytes body = (m, err))
    (hp : m.LogPolicy = "payload")
    (hu : urlParse (utf8 (rawURL m)) = some u)
    (hl : 3 ≤ (utf8 m.StatusCode).length)
    (hs : Atoi ((utf8 m.StatusCode).take 3) = some status)
    (ht : timeParse (utf8 m.Datetime) = some t)
    (hi : Atoi (utf8 m.TimeToServeRequest) = some interval)
    (hlo : -2 ^ 63 ≤ t.unixSec * 1000000000 + t.nsec)
    (hhi : t.unixSec * 1000000000 + t.nsec < 2 ^ 63) :
    ∃ res req, sends (handler ro body).effects =
      [(res, req, Int.tdiv (t.unixSec * 1000000000 + t.nsec) 1000000, interval)] := by
  have hl2 : ¬ (utf8 m.StatusCode).length < 3 := by omega
  rw [handler_eq ro body m err hd, sends_handleMessage]
  simp only [hp, hu, hl2, hs, ht, hi, ne_eq, not_true_eq_false, if_false, goDiv,
    Time.UnixNano, wrap64_of_range _ hlo hhi]
  exact ⟨_, _, rfl⟩

/-- C8 (amended) at one instant written with two offsets: `12:00:00.2509Z` and
`13:00:00.2509+01:00` on 2022-01-01 both give the timestamp 1641038400250. -/
theorem timestamp_is_epoch_millis_witness :
    (∃ res req, sends (handler storedOrder
        (eventBody "200" "2022-01-01T12:00:00.2509Z")).effects =
      [(res, req, 1641038400250, 5)]) ∧
    (∃ res req, sends (handler storedOrder
        (eventBody "200" "2022-01-01T13:00:00.2509+01:00")).effects =
      [(res, req, 1641038400250, 5)]) :=
  ⟨timestamp_is_epoch_millis storedOrder (eventBody "200" "2022-01-01T12:00:00.2509Z")
     (jsonBytes (eventBody "200" "2022-01-01T12:00:00.2509Z")).1
     (jsonBytes (eventBody "200" "2022-01-01T12:00:00.2509Z")).2
     eventURL 200 ⟨1641038400, 250900000, 0⟩ 5 rfl
     (by decide) (by decide) (by decide) (by decide) (by decide) (by decide)
     (by decide) (by decide),
   timestamp_is_epoch_millis storedOrder (eventBody "200" "2022-01-01T13:00:00.2509+01:00")
     (jsonBytes (eventBody "200" "2022-01-01T13:00:00.2509+01:00")).1
     (jsonBytes (eventBody "200" "2022-01-01T13:00:00.2509+01:00")).2
     eventURL 200 ⟨1641038400, 250900000, 3600⟩ 5 rfl
     (by decide) (by decide) (by decide) (by decide) (by decide) (by decide)
     (by decide) (by decide)⟩

/-- C9 fails as stated: for the datetime `"2022-01-01T12:00:00.250Z"` the handler does
not pass the timestamp 1640959200250 (that is 2021-12-31T14:00:00.250Z). -/
theorem sample_timestamp_differs :
    (sends (handler storedOrder (eventBody "200" "2022-01-01T12:00:00.250Z")).effects).map
      (fun call => call.2.2.1) ≠ [1640959200250] := by
  decide

/-- C9, amended: for every event that reaches the forwarder, the datetime
`"2022-01-01T12:00:00.250Z"` yields the absolute timestamp 1641038400250 (epoch
milliseconds). -/
theorem sample_timestamp (ro : RangeOrder) (body : Body) (m : Message) (err : Bool)
    (u : URL) (status : Int) (interval : Int)
    (hd : jsonBytes body = (m, err))
    (hp : m.LogPolicy = "payload")
    (hu : urlParse (utf8 (rawURL m)) = some u)
    (hl : 3 ≤ (utf8 m.StatusCode).length)
    (hs : Atoi ((utf8 m.StatusCode).take 3) = some status)
    (hdt : m.Datetime = "2022-01-01T12:00:00.250Z")
    (hi : Atoi (utf8 m.TimeToServeRequest) = some interval) :
    ∃ res req, sends (handler ro body).effects = [(res, req, 1641038400250, interval)] := by
  have hl2 : ¬ (utf8 m.StatusCode).length < 3 := by omega
  have ht : timeParse (utf8 m.Datetime) = some ⟨1641038400, 250000000, 0⟩ := by
    rw [hdt]; decide
  have hn : goDiv (Time.UnixNano ⟨1641038400, 250000000, 0⟩) 1000000 = 1641038400250 := by
    decide
  rw [handler_eq ro body m err hd, sends_handleMessage]
  simp only [hp, hu, hl2, hs, ht, hi, ne_eq, not_true_eq_false, if_false, hn]
  exact ⟨_, _, rfl⟩

/-- C9 (amended) at the sample event. -/
theorem sample_timestamp_witness :
    ∃ res req, sends (handler storedOrder
        (.json (.object (("log_policy", .string "payload") :: sampleMembers)))).effects =
      [(res, req, 1641038400250, 123)] :=
  sample_timestamp storedOrder
    (.json (.object (("log_policy", .string "payload") :: sampleMembers)))
    (jsonBytes (.json (.object (("log_policy", .string "payload") :: sampleMembers)))).1
    (jsonBytes (.json (.object (("log_policy", .string "payload") :: sampleMembers)))).2
    { Scheme := utf8 "https", Host := utf8 "api.example.com", Path := utf8 "/v1/items",
      RawQuery := utf8 "page=2" }
    404 123 rfl (by decide) (by decide) (by decide) (by decide) (by decide) (by decide)

/-- C10: for every event whose `datetime` the parser rejects, the handler never calls
`SendHttpMessage`. -/
theorem bad_datetime_not_forwarded (ro : RangeOrder) (body : Body) (m : Message) (err : Bool)
    (hd : jsonBytes body = (m, err))
    (ht : timeParse (utf8 m.Datetime) = none) :
    sends (handler ro body).effects = [] := by
  rw [handler_eq ro body m err hd, sends_handleMessage]
  by_cases hp : m.LogPolicy = "payload"
  · cases hu : urlParse (utf8 (rawURL m)) with
    | none => simp [hp]
    | some u =>
      by_cases hl : (utf8 m.StatusCode).length < 3
      · simp [hp, hl]
      · cases hs : Atoi ((utf8 m.StatusCode).take 3) <;> simp [hp, hl, hs, ht]
  · simp [hp]

/-- C10 at admitted events: a datetime without offset, an empty one, one in another
format and one with a non-numeric component are rejected, and nothing is forwarded. -/
theorem bad_datetime_not_forwarded_witness :
    sends (handler storedOrder (eventBody "200" "2022-01-01T12:00:00")).effects = [] ∧
    sends (handler storedOrder (eventBody "200" "")).effects = [] ∧
    sends (handler storedOrder (eventBody "200" "01/01/2022 12:00:00 +0000")).effects = [] ∧
    sends (handler storedOrder (eventBody "200" "2022-0x-01T12:00:00Z")).effects = [] :=
  ⟨bad_datetime_not_forwarded storedOrder (eventBody "200" "2022-01-01T12:00:00")
     (jsonBytes (eventBody "200" "2022-01-01T12:00:00")).1
     (jsonBytes (eventBody "200" "2022-01-01T12:00:00")).2 rfl (by decide),
   bad_datetime_not_forwarded storedOrder (eventBody "200" "")
     (jsonBytes (eventBody "200" "")).1 (jsonBytes (eventBody "200" "")).2 rfl (by decide),
   bad_datetime_not_forwarded storedOrder (eventBody "200" "01/01/2022 12:00:00 +0000")
     (jsonBytes (eventBody "200" "01/01/2022 12:00:00 +0000")).1
     (jsonBytes (eventBody "200" "01/01/2022 12:00:00 +0000")).2 rfl (by decide),
   bad_datetime_not_forwarded storedOrder (eventBody "200" "2022-0x-01T12:00:00Z")
     (jsonBytes (eventBody "200" "2022-0x-01T12:00:00Z")).1
     (jsonBytes (eventBody "200" "2022-0x-01T12:00:00Z")).2 rfl (by decide)⟩


/-! ## The forwarded call and the checks before it -/

/-- A call of `SendHttpMessage` is made only after every check has passed, and its
arguments are built from the fields of the event. -/
theorem sent_call (ro : RangeOrder) (m : Message) (err : Bool)
    (c : Response × Request × Int × Int)
    (h : c ∈ sends (handleMessage ro m err).effects) :
    ∃ u status t interval,
      m.LogPolicy = "payload" ∧ urlParse (utf8 (rawURL m)) = some u ∧
      3 ≤ (utf8 m.StatusCode).length ∧
      Atoi ((utf8 m.StatusCode).take 3) = some status ∧
      timeParse (utf8 m.Datetime) = some t ∧
      Atoi (utf8 m.TimeToServeRequest) = some interval ∧
      c = (⟨status, flattenHeaders (ro.order true) 0 m.ResponseHttpHeaders [],
              m.ResponseBody⟩,
            ⟨m.RequestMethod, u, m.Host, decide (m.RequestProtocol = "https"),
              flattenHeaders (ro.order false) 0 m.RequestHttpHeaders [], m.RequestBody⟩,
            goDiv t.UnixNano 1000000, interval) := by
  rw [sends_handleMessage] at h
  by_cases hp : m.LogPolicy = "payload"
  · cases hu : urlParse (utf8 (rawURL m)) with
    | none => simp [hp, hu] at h
    | some u =>
      by_cases hl : (utf8 m.StatusCode).length < 3
      · simp [hp, hu, hl] at h
      · cases hs : Atoi ((utf8 m.StatusCode).take 3) with
        | none => simp [hp, hu, hl, hs] at h
        | some status =>
          cases ht : timeParse (utf8 m.Datetime) with
          | none => simp [hp, hu, hl, hs, ht] at h
          | some t =>
            cases hi : Atoi (utf8 m.TimeToServeRequest) with
            | none => simp [hp, hu, hl, hs, ht, hi] at h
            | some interval =>
              simp only [hp, hu, hl, hs, ht, hi, ne_eq, not_true_eq_false, if_false,
                List.mem_singleton] at h
              exact ⟨u, status, t, interval, hp, rfl, by omega, rfl, rfl, rfl, h⟩
  · simp [hp] at h

/-- C18: for every event, the string handed to `url.Parse` is
`request_protocol + "://" + host + uri_path + "?" + query_string`: when the parser
rejects that string the handler returns without calling `SendHttpMessage`, and the URL
of every forwarded request is what the parser returns for that string. -/
theorem url_is_concatenation (ro : RangeOrder) (body : Body) (m : Message) (err : Bool)
    (hd : jsonBytes body = (m, err)) :
    (urlParse (utf8 (m.RequestProtocol ++ "://" ++ m.Host ++ m.UriPath ++ "?" ++
        m.QueryString)) = none →
      (handler ro body).panicked = false ∧ sends (handler ro body).effects = []) ∧
    (∀ c ∈ sends (handler ro body).effects,
      urlParse (utf8 (m.RequestProtocol ++ "://" ++ m.Host ++ m.UriPath ++ "?" ++
        m.QueryString)) = some c.2.1.URL) := by
  rw [handler_eq ro body m err hd]
  constructor
  · intro hu
    have hu2 : urlParse (utf8 (rawURL m)) = none := hu
    constructor
    · simp [panicked_handleMessage, hu2]
    · rw [sends_handleMessage]
      by_cases hp : m.LogPolicy = "payload" <;> simp [hp, hu2]
  · intro c hc
    obtain ⟨u, status, t, interval, _, hu, _, _, _, _, rfl⟩ := sent_call ro m err c hc
    exact hu

/-- C18 at three events: a host with a space makes the URL ill-formed and nothing is
forwarded; with an empty query string the `?` is still appended (the URL has
`ForceQuery`); a path without a leading `/` runs into the host. -/
theorem url_is_concatenation_witness :
    ((handler storedOrder (requestBody "http" "exa mple.com" "/" "")).panicked = false ∧
      sends (handler storedOrder (requestBody "http" "exa mple.com" "/" "")).effects = []) ∧
    (sends (handler storedOrder (requestBody "http" "example.com" "/a" "")).effects).map
        (fun c => some c.2.1.URL) =
      [urlParse (utf8 "http://example.com/a?")] ∧
    (sends (handler storedOrder (requestBody "http" "example.com" "v1" "x=1")).effects).map
        (fun c => some c.2.1.URL) =
      [urlParse (utf8 "http://example.comv1?x=1")] ∧
    urlParse (utf8 "http://example.com/a?") =
      some { Scheme := utf8 "http", Host := utf8 "example.com", Path := utf8 "/a",
             ForceQuery := true } ∧
    urlParse (utf8 "http://example.comv1?x=1") =
      some { Scheme := utf8 "http", Host := utf8 "example.comv1", RawQuery := utf8 "x=1" } :=
  ⟨(url_is_concatenation storedOrder (requestBody "http" "exa mple.com" "/" "")
      (jsonBytes (requestBody "http" "exa mple.com" "/" "")).1
      (jsonBytes (requestBody "http" "exa mple.com" "/" "")).2 rfl).1 (by decide),
   by decide, by decide, by decide, by decide⟩

/-- C19: for every request, the handler calls `SendHttpMessage` at most once, and it
calls it exactly when, for the decoded event, `log_policy == "payload"`, `url.Parse`
accepts the concatenated URL, `status_code` has at least three bytes and `strconv.Atoi`
accepts the first three, `time.Parse` accepts `datetime` and `strconv.Atoi` accepts
`time_to_serve_request`.  The checks run in that order: the discard message is logged
exactly when the policy check fails, whatever the other fields, and the slice of a
status shorter than three bytes ends the run (by a panic) exactly when the policy and
URL checks passed, whatever `datetime` and `time_to_serve_request` hold. -/
theorem send_iff_all_checks_pass (ro : RangeOrder) (body : Body) (m : Message) (err : Bool)
    (hd : jsonBytes body = (m, err)) :
    (sends (handler ro body).effects).length ≤ 1 ∧
    ((sends (handler ro body).effects).length = 1 ↔
      (m.LogPolicy = "payload" ∧ (urlParse (utf8 (rawURL m))).isSome = true ∧
        3 ≤ (utf8 m.StatusCode).length ∧
        (Atoi ((utf8 m.StatusCode).take 3)).isSome = true ∧
        (timeParse (utf8 m.Datetime)).isSome = true ∧
        (Atoi (utf8 m.TimeToServeRequest)).isSome = true)) ∧
    (Effect.logPrintln notLoggedMessage ∈ (handler ro body).effects ↔
      m.LogPolicy ≠ "payload") ∧
    ((handler ro body).panicked = true ↔
      (m.LogPolicy = "payload" ∧ (urlParse (utf8 (rawURL m))).isSome = true ∧
        (utf8 m.StatusCode).length < 3)) := by
  rw [handler_eq ro body m err hd]
  refine ⟨?_, ?_, ?_, ?_⟩
  · rw [sends_handleMessage]
    by_cases hp : m.LogPolicy = "payload" <;>
      cases hu : urlParse (utf8 (rawURL m)) <;>
      by_cases hl : (utf8 m.StatusCode).length < 3 <;>
      cases hs : Atoi ((utf8 m.StatusCode).take 3) <;>
      cases ht : timeParse (utf8 m.Datetime) <;>
      cases hi : Atoi (utf8 m.TimeToServeRequest) <;>
      simp [hp, hl]
  · rw [sends_handleMessage]
    by_cases hp : m.LogPolicy = "payload" <;>
      cases hu : urlParse (utf8 (rawURL m)) <;>
      by_cases hl : (utf8 m.StatusCode).length < 3 <;>
      cases hs : Atoi ((utf8 m.StatusCode).take 3) <;>
      cases ht : timeParse (utf8 m.Datetime) <;>
      cases hi : Atoi (utf8 m.TimeToServeRequest) <;>
      simp [hp, hl] <;> omega
  · cases err <;> by_cases hp : m.LogPolicy = "payload" <;>
      cases hu : urlParse (utf8 (rawURL m)) <;>
      by_cases hl : (utf8 m.StatusCode).length < 3 <;>
      cases hs : Atoi ((utf8 m.StatusCode).take 3) <;>
      cases ht : timeParse (utf8 m.Datetime) <;>
      cases hi : Atoi (utf8 m.TimeToServeRequest) <;>
      simp [handleMessage, hp, hu, hl, hs, ht, hi]
  · rw [panicked_handleMessage]
    simp [Bool.and_eq_true]
    tauto

/-- C19 at concrete requests: the sample event passes every check and is sent once; an
event with a short status and an unreadable datetime panics at the status slice; an
event without policy tag and with an ill-formed URL is logged as discarded. -/
theorem send_iff_all_checks_pass_witness :
    (sends (handler storedOrder
      (.json (.object (("log_policy", .string "payload") :: sampleMembers)))).effects).length
      = 1 ∧
    (handler storedOrder (eventBody "4" "yesterday")).panicked = true ∧
    Effect.logPrintln notLoggedMessage ∈
      (handler storedOrder (.json (.object [("host", .string "exa mple.com")]))).effects :=
  ⟨((send_iff_all_checks_pass storedOrder
      (.json (.object (("log_policy", .string "payload") :: sampleMembers)))
      (jsonBytes (.json (.object (("log_policy", .string "payload") :: sampleMembers)))).1
      (jsonBytes (.json (.object (("log_policy", .string "payload") :: sampleMembers)))).2
      rfl).2.1).2 (by decide),
   ((send_iff_all_checks_pass storedOrder (eventBody "4" "yesterday")
      (jsonBytes (eventBody "4" "yesterday")).1 (jsonBytes (eventBody "4" "yesterday")).2
      rfl).2.2.2).2 (by decide),
   ((send_iff_all_checks_pass storedOrder (.json (.object [("host", .string "exa mple.com")]))
      (jsonBytes (.json (.object [("host", .string "exa mple.com")]))).1
      (jsonBytes (.json (.object [("host", .string "exa mple.com")]))).2
      rfl).2.2.1).2 (by decide)⟩

/-! ## The secure-transport marker -/

/-- C12 fails as stated: `"HTTPS"` equals `"https"` up to case, but the request
forwarded for an event with `request_protocol` `"HTTPS"` has `TLS` unset (and likewise
for `"Https"`). -/
theorem upper_case_https_not_marked :
    eqFoldASCII "HTTPS" "https" = true ∧
    (sends (handler storedOrder (requestBody "HTTPS" "example.com" "/" "")).effects).map
      (fun c => c.2.1.TLS) = [false] ∧
    (sends (handler storedOrder (requestBody "Https" "example.com" "/" "")).effects).map
      (fun c => c.2.1.TLS) = [false] := by
  decide

/-- C12, amended: the secure-transport marker of every forwarded request (`req.TLS`
non-nil) is set if and only if the event's `request_protocol` is exactly the string
`"https"`; every other value, other spellings of `https` included, leaves it unset. -/
theorem tls_iff_exact_https (ro : RangeOrder) (body : Body) (m : Message) (err : Bool)
    (hd : jsonBytes body = (m, err)) :
    ∀ c ∈ sends (handler ro body).effects,
      (c.2.1.TLS = true ↔ m.RequestProtocol = "https") := by
  rw [handler_eq ro body m err hd]
  intro c hc
  obtain ⟨u, status, t, interval, _, _, _, _, _, _, rfl⟩ := sent_call ro m err c hc
  simp

/-- C12 (amended) at two events: `"https"` sets the marker, `"http"` does not. -/
theorem tls_iff_exact_https_witness :
    (sends (handler storedOrder (requestBody "https" "example.com" "/" "")).effects).map
      (fun c => c.2.1.TLS) = [true] ∧
    (sends (handler storedOrder (requestBody "http" "example.com" "/" "")).effects).map
      (fun c => c.2.1.TLS) = [false] ∧
    ∀ c ∈ sends (handler storedOrder (requestBody "https" "example.com" "/" "")).effects,
      (c.2.1.TLS = true ↔
        (jsonBytes (requestBody "https" "example.com" "/" "")).1.RequestProtocol = "https") :=
  ⟨by decide, by decide,
   tls_iff_exact_https storedOrder (requestBody "https" "example.com" "/" "")
     (jsonBytes (requestBody "https" "example.com" "/" "")).1
     (jsonBytes (requestBody "https" "example.com" "/" "")).2 rfl⟩

/-! ## The response to the webhook caller -/

/-- The calls of `WriteHeader` of a run: 200 in every run, after a 500 when decoding
failed. -/
theorem writtenHeaders_handleMessage (ro : RangeOrder) (m : Message) (err : Bool) :
    writtenHeaders (handleMessage ro m err).effects = if err then [500, 200] else [200] := by
  cases err <;> by_cases hp : m.LogPolicy = "payload" <;>
    cases hu : urlParse (utf8 (rawURL m)) <;>
    by_cases hl : (utf8 m.StatusCode).length < 3 <;>
    cases hs : Atoi ((utf8 m.StatusCode).take 3) <;>
    cases ht : timeParse (utf8 m.Datetime) <;>
    cases hi : Atoi (utf8 m.TimeToServeRequest) <;>
    simp [handleMessage, writtenHeaders, hp, hu, hl, hs, ht, hi]

/-- C13, the code at a failing input: on a body that is not JSON, `jsonBytes` returns an
error and the handler calls `WriteHeader` twice, with 500 and then with 200. -/
theorem decode_failure_writes_twice :
    (jsonBytes Body.invalid).2 = true ∧
    writtenHeaders (handler storedOrder Body.invalid).effects = [500, 200] := by
  decide

/-- C14 fails as stated: an admitted event whose `datetime` does not parse (and likewise
one whose URL, status code or elapsed time is bad) decodes without error, fails
validation and is not forwarded, yet the only status the handler writes is 200. -/
theorem validation_failure_writes_200 :
    ((jsonBytes (eventBody "200" "yesterday")).2 = false ∧
      sends (handler storedOrder (eventBody "200" "yesterday")).effects = [] ∧
      writtenHeaders (handler storedOrder (eventBody "200" "yesterday")).effects = [200]) ∧
    (sends (handler storedOrder (eventBody "abc" "2022-01-01T12:00:00Z")).effects = [] ∧
      writtenHeaders (handler storedOrder (eventBody "abc" "2022-01-01T12:00:00Z")).effects
        = [200]) ∧
    (sends (handler storedOrder (requestBody "http" "exa mple.com" "/" "")).effects = [] ∧
      writtenHeaders (handler storedOrder (requestBody "http" "exa mple.com" "/" "")).effects
        = [200]) := by
  decide

/-- C14, amended: the status code the handler writes is 200 whenever decoding succeeds,
be the event forwarded, discarded by the policy filter or dropped because a field fails
validation (the header is written before any field is looked at); when decoding fails
the first status it writes is 500. -/
theorem written_status (ro : RangeOrder) (body : Body) (m : Message) (err : Bool)
    (hd : jsonBytes body = (m, err)) :
    (err = false → writtenHeaders (handler ro body).effects = [200]) ∧
    (err = true → (writtenHeaders (handler ro body).effects).head? = some 500) := by
  rw [handler_eq ro body m err hd, writtenHeaders_handleMessage]
  constructor
  · intro h; simp [h]
  · intro h; simp [h]

/-- C14 (amended) at concrete requests: a forwarded event and a discarded one get 200,
a body that is not JSON gets 500 first. -/
theorem written_status_witness :
    writtenHeaders (handler storedOrder (eventBody "200" "2022-01-01T12:00:00Z")).effects
      = [200] ∧
    writtenHeaders (handler storedOrder (.json (.object sampleMembers))).effects = [200] ∧
    (writtenHeaders (handler storedOrder Body.invalid).effects).head? = some 500 :=
  ⟨(written_status storedOrder (eventBody "200" "2022-01-01T12:00:00Z")
      (jsonBytes (eventBody "200" "2022-01-01T12:00:00Z")).1
      (jsonBytes (eventBody "200" "2022-01-01T12:00:00Z")).2 rfl).1 (by decide),
   (written_status storedOrder (.json (.object sampleMembers))
      (jsonBytes (.json (.object sampleMembers))).1
      (jsonBytes (.json (.object sampleMembers))).2 rfl).1 (by decide),
   (written_status storedOrder Body.invalid (jsonBytes Body.invalid).1
      (jsonBytes Body.invalid).2 rfl).2 (by decide)⟩

/-! ## Independence of the two header sets -/

/-- C16: the two header sets are reconstructed independently.  In every forwarded call
the response header set is the flattening of `response_http_headers` and the request
header set the flattening of `request_http_headers`; hence for two events (with the maps
of a list iterated the same way), equal response lists give equal response header sets
whatever the request lists are, and equal request lists give equal request header sets
whatever the response lists are. -/
theorem header_sets_independent (ro : RangeOrder) (body1 body2 : Body)
    (m1 m2 : Message) (err1 err2 : Bool)
    (hd1 : jsonBytes body1 = (m1, err1)) (hd2 : jsonBytes body2 = (m2, err2)) :
    ∀ c1 ∈ sends (handler ro body1).effects, ∀ c2 ∈ sends (handler ro body2).effects,
      c1.1.Header = flattenHeaders (ro.order true) 0 m1.ResponseHttpHeaders [] ∧
      c1.2.1.Header = flattenHeaders (ro.order false) 0 m1.RequestHttpHeaders [] ∧
      (m1.ResponseHttpHeaders = m2.ResponseHttpHeaders → c1.1.Header = c2.1.Header) ∧
      (m1.RequestHttpHeaders = m2.RequestHttpHeaders → c1.2.1.Header = c2.2.1.Header) := by
  rw [handler_eq ro body1 m1 err1 hd1, handler_eq ro body2 m2 err2 hd2]
  intro c1 hc1 c2 hc2
  obtain ⟨_, _, _, _, _, _, _, _, _, _, rfl⟩ := sent_call ro m1 err1 c1 hc1
  obtain ⟨_, _, _, _, _, _, _, _, _, _, rfl⟩ := sent_call ro m2 err2 c2 hc2
  refine ⟨rfl, rfl, ?_, ?_⟩
  · intro h; simp only [h]
  · intro h; simp only [h]

/-- C16 at two events with the same response list and different request lists: the
response header sets are equal. -/
theorem header_sets_independent_witness :
    (sends (handler storedOrder (headersBody (.array [.object [("x-a", .string "1")]])
      (.array [.object [("content-type", .string "text/plain")]]))).effects).map
        (fun c => (c.2.1.Header, c.1.Header)) =
      [([("X-A", ["1"])], [("Content-Type", ["text/plain"])])] ∧
    (sends (handler storedOrder (headersBody (.array [.object [("content-type", .string "b")]])
      (.array [.object [("content-type", .string "text/plain")]]))).effects).map
        (fun c => (c.2.1.Header, c.1.Header)) =
      [([("Content-Type", ["b"])], [("Content-Type", ["text/plain"])])] ∧
    ∀ c1 ∈ sends (handler storedOrder (headersBody (.array [.object [("x-a", .string "1")]])
        (.array [.object [("content-type", .string "text/plain")]]))).effects,
      ∀ c2 ∈ sends (handler storedOrder
        (headersBody (.array [.object [("content-type", .string "b")]])
          (.array [.object [("content-type", .string "text/plain")]]))).effects,
      c1.1.Header = c2.1.Header :=
  ⟨by decide, by decide, fun c1 hc1 c2 hc2 =>
    (header_sets_independent storedOrder
      (headersBody (.array [.object [("x-a", .string "1")]])
        (.array [.object [("content-type", .string "text/plain")]]))
      (headersBody (.array [.object [("content-type", .string "b")]])
        (.array [.object [("content-type", .string "text/plain")]]))
      _ _ _ _ rfl rfl c1 hc1 c2 hc2).2.2.1 (by decide)⟩

/-! ## Elapsed duration -/

theorem atoiFastLoop_eq_digitsValue (l : Bytes) (n : Nat) (hlt : ∀ x ∈ l, x < 256) :
    atoiFastLoop l n = digitsValue l n := by
  induction l generalizing n with
  | nil => rfl
  | cons c rest ih =>
    cases hc : isDigitByte c with
    | false =>
      rw [atoiFastLoop_not_digit c rest n (hlt c (by simp)) hc]
      simp [digitsValue, hc]
    | true =>
      rw [atoiFastLoop_digit c rest n hc, ih _ (fun x hx => hlt x (by simp [hx]))]
      simp [digitsValue, hc]

theorem digitsValue_bounds (l : Bytes) (n v : Nat) (h : digitsValue l n = some v) :
    n * 10 ^ l.length ≤ v ∧ v < (n + 1) * 10 ^ l.length := by
  induction l generalizing n with
  | nil =>
    simp only [digitsValue, Option.some.injEq] at h
    subst h
    simp
  | cons c rest ih =>
    cases hc : isDigitByte c with
    | false => simp [digitsValue, hc] at h
    | true =>
      have hb := toNat_lt_of_isDigitByte c hc
      simp only [digitsValue, hc, if_true] at h
      obtain ⟨h1, h2⟩ := ih _ h
      simp only [List.length_cons, pow_succ]
      constructor
      · calc n * (10 ^ rest.length * 10) = (n * 10) * 10 ^ rest.length := by ring
          _ ≤ (n * 10 + (c - 48)) * 10 ^ rest.length :=
            Nat.mul_le_mul_right _ (Nat.le_add_right _ _)
          _ ≤ v := h1
      · calc v < (n * 10 + (c - 48) + 1) * 10 ^ rest.length := h2
          _ ≤ ((n + 1) * 10) * 10 ^ rest.length :=
            Nat.mul_le_mul_right _ (by omega)
          _ = (n + 1) * (10 ^ rest.length * 10) := by ring

theorem parseUintLoop_of_digits (l : Bytes) (n v : Nat) (hn : n ≤ 2 ^ 64 - 1)
    (h : digitsValue l n = some v) :
    parseUintLoop l n = if v ≤ 2 ^ 64 - 1 then NumResult.ok v else NumResult.rangeErr := by
  have e : (2 : Nat) ^ 64 - 1 = 18446744073709551615 := by norm_num
  rw [e] at hn ⊢
  induction l generalizing n with
  | nil =>
    simp only [digitsValue, Option.some.injEq] at h
    subst h
    simp [parseUintLoop, hn]
  | cons c rest ih =>
    cases hc : isDigitByte c with
    | false => simp [digitsValue, hc] at h
    | true =>
      have hb := toNat_lt_of_isDigitByte c hc
      simp only [digitsValue, hc, if_true] at h
      obtain ⟨h1, _⟩ := digitsValue_bounds _ _ _ h
      have hpos : 1 ≤ 10 ^ rest.length := Nat.one_le_pow _ _ (by norm_num)
      have hv : n * 10 + (c - 48) ≤ v :=
        le_trans (by simpa using Nat.mul_le_mul_left (n * 10 + (c - 48)) hpos) h1
      simp only [parseUintLoop, hc, if_true, e]
      by_cases hcut : n ≥ 18446744073709551615 / 10 + 1
      · have : ¬ v ≤ 18446744073709551615 := by omega
        rw [if_pos hcut, if_neg this]
      · by_cases hmax : n * 10 + (c - 48) > 18446744073709551615
        · have : ¬ v ≤ 18446744073709551615 := by omega
          rw [if_neg hcut, if_pos hmax, if_neg this]
        · rw [if_neg hcut, if_neg hmax]
          exact ih _ (by omega) h

theorem parseUintLoop_of_not_digits (l : Bytes) (n : Nat) (h : digitsValue l n = none) :
    ∀ v, parseUintLoop l n ≠ NumResult.ok v := by
  induction l generalizing n with
  | nil => simp [digitsValue] at h
  | cons c rest ih =>
    intro v
    cases hc : isDigitByte c with
    | false => simp [parseUintLoop, hc]
    | true =>
      simp only [digitsValue, hc, if_true] at h
      simp only [parseUintLoop, hc, if_true]
      split_ifs
      · simp
      · simp
      · exact ih _ h v

theorem parseUint_of_digits (body : Bytes) (un : Nat) (hne : body ≠ [])
    (h : digitsValue body 0 = some un) :
    parseUint body = if un ≤ 2 ^ 64 - 1 then NumResult.ok un else NumResult.rangeErr := by
  unfold parseUint
  rw [if_neg hne]
  exact parseUintLoop_of_digits body 0 un (by norm_num) h

theorem parseUint_of_not_digits (body : Bytes) (h : digitsValue body 0 = none) :
    ∀ v, parseUint body ≠ NumResult.ok v := by
  intro v
  unfold parseUint
  split_ifs
  · simp
  · exact parseUintLoop_of_not_digits body 0 h v

/-- The sign and range step of `strconv.ParseInt` after `ParseUint`. -/
theorem parseInt_sign (neg : Bool) (body : Bytes) (hne : body ≠ []) :
    (match parseUint body with
      | .syntaxErr => none
      | .rangeErr => none
      | .ok un =>
        if !neg ∧ un ≥ 2 ^ 63 then none
        else if neg ∧ un > 2 ^ 63 then none
        else some (if neg then -(un : Int) else (un : Int))) =
    match digitsValue body 0 with
    | some un =>
      if -2 ^ 63 ≤ (if neg then -(un : Int) else (un : Int)) ∧
          (if neg then -(un : Int) else (un : Int)) < 2 ^ 63 then
        some (if neg then -(un : Int) else (un : Int))
      else none
    | none => none := by
  cases hdv : digitsValue body 0 with
  | none =>
    have hno := parseUint_of_not_digits body hdv
    cases hp : parseUint body with
    | syntaxErr => rfl
    | rangeErr => rfl
    | ok v => exact absurd hp (hno v)
  | some un =>
    rw [parseUint_of_digits body un hne hdv]
    by_cases hmax : un ≤ 2 ^ 64 - 1
    · rw [if_pos hmax]
      cases neg
      · simp only [Bool.not_false, true_and, Bool.false_eq_true, false_and, if_false]
        norm_num
        split_ifs <;> first | rfl | (exfalso; omega)
      · simp only [Bool.not_true, Bool.false_eq_true, false_and, if_false, true_and, if_true]
        norm_num
        split_ifs <;> first | rfl | (exfalso; omega)
    · rw [if_neg hmax]
      norm_num at hmax
      cases neg
      · simp only [Bool.false_eq_true, if_false]
        norm_num
        split_ifs <;> first | rfl | (exfalso; omega)
      · simp only [if_true]
        norm_num
        split_ifs <;> first | rfl | (exfalso; omega)

/-- What `strconv.ParseInt(s, 10, 0)` computes: the integer the string writes, when it
lies in the range of `int64`. -/
theorem parseInt_eq (s : Bytes) :
    parseInt s =
      match writtenInteger s with
      | some n => if -2 ^ 63 ≤ n ∧ n < 2 ^ 63 then some n else none
      | none => none := by
  cases s with
  | nil => rfl
  | cons c rest =>
    unfold parseInt writtenInteger
    simp only
    by_cases h43 : c = 43
    · subst h43
      by_cases hr : rest = []
      · subst hr; rfl
      · have := parseInt_sign false rest hr
        simp only [Bool.false_eq_true, if_false] at this
        cases hdv : digitsValue rest 0 <;> simp [hr, hdv] at this ⊢ <;> exact this
    · by_cases h45 : c = 45
      · subst h45
        by_cases hr : rest = []
        · subst hr; rfl
        · have := parseInt_sign true rest hr
          simp only [if_true] at this
          cases hdv : digitsValue rest 0 <;> simp [hr, hdv] at this ⊢ <;> exact this
      · have := parseInt_sign false (c :: rest) (by simp)
        simp only [Bool.false_eq_true, if_false] at this
        cases hdv : digitsValue (c :: rest) 0 <;> simp [h43, h45, hdv] at this ⊢ <;>
          exact this

theorem digitsValue_lt_of_short (l : Bytes) (n : Nat) (hl : l.length ≤ 18)
    (h : digitsValue l 0 = some n) : n < 1000000000000000000 := by
  have hb := (digitsValue_bounds l 0 n h).2
  have hp : 10 ^ l.length ≤ 10 ^ 18 := Nat.pow_le_pow_right (by norm_num) hl
  norm_num at hb hp
  omega

/-- What `strconv.Atoi` computes: the integer the string writes, when it lies in the
range of `int64`; an error for any other string. -/
theorem atoi_eq (s : Bytes) (hlt : ∀ b ∈ s, b < 256) :
    Atoi s =
      match writtenInteger s with
      | some n => if -2 ^ 63 ≤ n ∧ n < 2 ^ 63 then some n else none
      | none => none := by
  cases s with
  | nil => rfl
  | cons c rest =>
    by_cases hlen : (c :: rest).length < 19
    · have hrl : rest.length ≤ 18 := by simp at hlen; omega
      have hrest : ∀ x ∈ rest, x < 256 := fun x hx => hlt x (by simp [hx])
      unfold Atoi writtenInteger
      simp only [hlen, if_true]
      by_cases h45 : c = 45
      · subst h45
        cases rest with
        | nil => simp
        | cons d ds =>
          rw [atoiFastLoop_eq_digitsValue]
          · cases hdv : digitsValue (d :: ds) 0 with
            | none => simp [hdv]
            | some n =>
              have hn := digitsValue_lt_of_short _ n hrl hdv
              simp [hdv]
              omega
          · simpa using hrest
      · by_cases h43 : c = 43
        · subst h43
          cases rest with
          | nil => simp
          | cons d ds =>
            rw [atoiFastLoop_eq_digitsValue]
            · cases hdv : digitsValue (d :: ds) 0 with
              | none => simp [hdv]
              | some n =>
                have hn := digitsValue_lt_of_short _ n hrl hdv
                simp [hdv]
                omega
            · simpa using hrest
        · simp only [h45, h43, decide_False, Bool.or_self, Bool.false_eq_true, if_false,
            false_and]
          rw [atoiFastLoop_eq_digitsValue _ _ hlt]
          cases hdv : digitsValue (c :: rest) 0 with
          | none => simp
          | some n =>
            have hn := digitsValue_lt_of_short _ n (by simp at hlen ⊢; omega) hdv
            simp
            omega
    · have : Atoi (c :: rest) = parseInt (c :: rest) := by
        unfold Atoi
        simp only [hlen, if_false]
      rw [this, parseInt_eq]


/-- C11 fails as stated: `"9223372036854775808"` writes a base-10 integer, but it is
outside the range of `int` and `strconv.Atoi` rejects it: the event is not forwarded. -/
theorem large_duration_not_forwarded :
    writtenInteger (utf8 "9223372036854775808") = some 9223372036854775808 ∧
    sends (handler storedOrder (elapsedBody "9223372036854775808")).effects = [] := by
  decide

/-- C11, amended: the elapsed-duration step passes a base-10 integer through within the
range of a 64-bit `int`.  For every event that has passed the earlier checks: when
`time_to_serve_request` writes a base-10 integer (an optional sign and decimal digits)
between `-2^63` and `2^63 - 1`, `SendHttpMessage` is called once with exactly that
integer as duration; when it writes an integer outside that range, or is not a base-10
integer at all, the handler returns without calling `SendHttpMessage`. -/
theorem duration_is_written_integer (ro : RangeOrder) (body : Body) (m : Message)
    (err : Bool) (u : URL) (status : Int) (t : Time)
    (hd : jsonBytes body = (m, err))
    (hp : m.LogPolicy = "payload")
    (hu : urlParse (utf8 (rawURL m)) = some u)
    (hl : 3 ≤ (utf8 m.StatusCode).length)
    (hs : Atoi ((utf8 m.StatusCode).take 3) = some status)
    (ht : timeParse (utf8 m.Datetime) = some t) :
    (∀ n : Int, writtenInteger (utf8 m.TimeToServeRequest) = some n →
      -2 ^ 63 ≤ n → n < 2 ^ 63 →
      ∃ res req now, sends (handler ro body).effects = [(res, req, now, n)]) ∧
    (∀ n : Int, writtenInteger (utf8 m.TimeToServeRequest) = some n →
      ¬ (-2 ^ 63 ≤ n ∧ n < 2 ^ 63) →
      (handler ro body).panicked = false ∧ sends (handler ro body).effects = []) ∧
    (writtenInteger (utf8 m.TimeToServeRequest) = none →
      (handler ro body).panicked = false ∧ sends (handler ro body).effects = []) := by
  have hl2 : ¬ (utf8 m.StatusCode).length < 3 := by omega
  have ha := atoi_eq (utf8 m.TimeToServeRequest) (utf8_lt _)
  rw [handler_eq ro body m err hd]
  refine ⟨?_, ?_, ?_⟩
  · intro n hw h1 h2
    have hi : Atoi (utf8 m.TimeToServeRequest) = some n := by
      rw [ha, hw]; simp only [h1, h2, and_self, if_true]
    rw [sends_handleMessage]
    simp only [hp, hu, hl2, hs, ht, hi, ne_eq, not_true_eq_false, if_false]
    exact ⟨_, _, _, rfl⟩
  · intro n hw hr
    have hi : Atoi (utf8 m.TimeToServeRequest) = none := by
      rw [ha, hw]; simp only [hr, if_false]
    constructor
    · simp [panicked_handleMessage, hl2]
    · rw [sends_handleMessage]
      simp [hp, hu, hl2, hs, ht, hi]
  · intro hw
    have hi : Atoi (utf8 m.TimeToServeRequest) = none := by
      rw [ha, hw]
    constructor
    · simp [panicked_handleMessage, hl2]
    · rw [sends_handleMessage]
      simp [hp, hu, hl2, hs, ht, hi]

/-- C11 (amended) at concrete events: `"123"` yields the duration 123, `"-7"` the
duration -7, and `"fast"` is not forwarded. -/
theorem duration_is_written_integer_witness :
    (∃ res req now, sends (handler storedOrder (elapsedBody "123")).effects =
      [(res, req, now, 123)]) ∧
    (∃ res req now, sends (handler storedOrder (elapsedBody "-7")).effects =
      [(res, req, now, -7)]) ∧
    ((handler storedOrder (elapsedBody "fast")).panicked = false ∧
      sends (handler storedOrder (elapsedBody "fast")).effects = []) :=
  ⟨(duration_is_written_integer storedOrder (elapsedBody "123")
      (jsonBytes (elapsedBody "123")).1 (jsonBytes (elapsedBody "123")).2
      eventURL 200 ⟨1641038400, 0, 0⟩ rfl (by decide) (by decide) (by decide) (by decide)
      (by decide)).1 123 (by decide) (by decide) (by decide),
   (duration_is_written_integer storedOrder (elapsedBody "-7")
      (jsonBytes (elapsedBody "-7")).1 (jsonBytes (elapsedBody "-7")).2
      eventURL 200 ⟨1641038400, 0, 0⟩ rfl (by decide) (by decide) (by decide) (by decide)
      (by decide)).1 (-7) (by decide) (by decide) (by decide),
   (duration_is_written_integer storedOrder (elapsedBody "fast")
      (jsonBytes (elapsedBody "fast")).1 (jsonBytes (elapsedBody "fast")).2
      eventURL 200 ⟨1641038400, 0, 0⟩ rfl (by decide) (by decide) (by decide) (by decide)
      (by decide)).2.2 (by decide)⟩

/-! ## Determinism of the translation -/

/-- In a list whose elements have distinct images under `f`, searching for the image `k`
gives the same result in every rearrangement of the list. -/
theorem find_perm_of_nodup {α : Type} (f : α → String) (k : String) (l1 l2 : List α)
    (hp : l1.Perm l2) (hn : (l1.map f).Nodup) :
    l1.find? (fun x => decide (f x = k)) = l2.find? (fun x => decide (f x = k)) := by
  cases h1 : l1.find? (fun x => decide (f x = k)) with
  | none =>
    symm
    rw [List.find?_eq_none] at h1 ⊢
    intro x hx
    exact h1 x (hp.mem_iff.2 hx)
  | some x =>
    have hx1 := List.find?_some h1
    have hxm : x ∈ l1 := List.mem_of_find?_eq_some h1
    cases h2 : l2.find? (fun x => decide (f x = k)) with
    | none =>
      rw [List.find?_eq_none] at h2
      exact absurd hx1 (h2 x (hp.mem_iff.1 hxm))
    | some y =>
      have hy1 := List.find?_some h2
      have hym : y ∈ l1 := hp.mem_iff.2 (List.mem_of_find?_eq_some h2)
      simp only [decide_eq_true_eq] at hx1 hy1
      have := List.inj_on_of_nodup_map hn hxm hym (hx1.trans hy1.symm)
      rw [this]

theorem sameHeader_setEntries (h1 h2 : Header) (mp es1 es2 : GoMap)
    (hs : sameHeader h1 h2) (hn : (canonicalKeys mp).Nodup)
    (p1 : es1.Perm mp) (p2 : es2.Perm mp) :
    sameHeader (setEntries h1 es1) (setEntries h2 es2) := by
  intro k
  rw [index_setEntries, index_setEntries]
  have hperm : es1.reverse.Perm es2.reverse :=
    ((List.reverse_perm es1).trans p1).trans ((List.reverse_perm es2).trans p2).symm
  have hnod : (es1.reverse.map fun kv => CanonicalMIMEHeaderKey kv.1).Nodup := by
    have : (es1.reverse.map fun kv => CanonicalMIMEHeaderKey kv.1).Perm (canonicalKeys mp) :=
      (((List.reverse_perm es1).trans p1).map _)
    exact this.nodup_iff.2 hn
  rw [find_perm_of_nodup (fun kv : String × String => CanonicalMIMEHeaderKey kv.1) k
    es1.reverse es2.reverse hperm hnod, hs k]

theorem sameHeader_flattenHeaders (o1 o2 : Nat → GoMap → GoMap)
    (hp1 : ∀ idx mp, (o1 idx mp).Perm mp) (hp2 : ∀ idx mp, (o2 idx mp).Perm mp)
    (l : List GoMap) (hn : ∀ mp ∈ l, (canonicalKeys mp).Nodup)
    (idx : Nat) (h1 h2 : Header) (hs : sameHeader h1 h2) :
    sameHeader (flattenHeaders o1 idx l h1) (flattenHeaders o2 idx l h2) := by
  induction l generalizing idx h1 h2 with
  | nil => exact hs
  | cons mp rest ih =>
    simp only [flattenHeaders]
    apply ih (fun x hx => hn x (by simp [hx]))
    exact sameHeader_setEntries h1 h2 mp _ _ hs (hn mp (by simp)) (hp1 idx mp) (hp2 idx mp)


theorem sends_length_eq (ro1 ro2 : RangeOrder) (m : Message) (err : Bool) :
    (sends (handleMessage ro1 m err).effects).length =
      (sends (handleMessage ro2 m err).effects).length := by
  rw [sends_handleMessage, sends_handleMessage]
  by_cases hp : m.LogPolicy = "payload" <;>
    cases hu : urlParse (utf8 (rawURL m)) <;>
    by_cases hl : (utf8 m.StatusCode).length < 3 <;>
    cases hs : Atoi ((utf8 m.StatusCode).take 3) <;>
    cases ht : timeParse (utf8 m.Datetime) <;>
    cases hi : Atoi (utf8 m.TimeToServeRequest) <;>
    simp [hp, hl]

/-- C17 fails as stated: for an event whose request header list holds the two-key
mapping `{"a": "1", "A": "2"}`, two translations that visit the entries of the mapping
in different orders send requests whose header `A` is `"2"` in one and `"1"` in the
other. -/
theorem two_key_mapping_not_deterministic :
    (sends (handler storedOrder (headersBody
      (.array [.object [("a", .string "1"), ("A", .string "2")]]) (.array []))).effects).map
        (fun c => Header.Get c.2.1.Header "A") = ["2"] ∧
    (sends (handler reverseOrder (headersBody
      (.array [.object [("a", .string "1"), ("A", .string "2")]]) (.array []))).effects).map
        (fun c => Header.Get c.2.1.Header "A") = ["1"] := by
  decide

/-- C17, amended: translation is a deterministic function of the fields of every event
in whose header-list entries no two keys of one mapping have the same canonical form
(single-entry mappings in particular).  Translating such an event twice, whatever the
order in which each run visits the entries of the mappings, ends the same way (return or
panic), writes the same status codes and makes the same number of calls of
`SendHttpMessage` with identical request, response, timestamp and duration. -/
theorem translation_deterministic (ro1 ro2 : RangeOrder) (body : Body) (m : Message)
    (err : Bool) (hd : jsonBytes body = (m, err))
    (hreq : ∀ mp ∈ m.RequestHttpHeaders, (canonicalKeys mp).Nodup)
    (hres : ∀ mp ∈ m.ResponseHttpHeaders, (canonicalKeys mp).Nodup) :
    (handler ro1 body).panicked = (handler ro2 body).panicked ∧
    writtenHeaders (handler ro1 body).effects = writtenHeaders (handler ro2 body).effects ∧
    (sends (handler ro1 body).effects).length = (sends (handler ro2 body).effects).length ∧
    ∀ c1 ∈ sends (handler ro1 body).effects, ∀ c2 ∈ sends (handler ro2 body).effects,
      sameCall c1 c2 := by
  rw [handler_eq ro1 body m err hd, handler_eq ro2 body m err hd]
  refine ⟨?_, ?_, sends_length_eq ro1 ro2 m err, ?_⟩
  · rw [panicked_handleMessage, panicked_handleMessage]
  · rw [writtenHeaders_handleMessage, writtenHeaders_handleMessage]
  · intro c1 hc1 c2 hc2
    obtain ⟨u1, s1, t1, i1, _, hu1, _, hs1, ht1, hi1, rfl⟩ := sent_call ro1 m err c1 hc1
    obtain ⟨u2, s2, t2, i2, _, hu2, _, hs2, ht2, hi2, rfl⟩ := sent_call ro2 m err c2 hc2
    have eu : u1 = u2 := Option.some.inj (hu1.symm.trans hu2)
    have es : s1 = s2 := Option.some.inj (hs1.symm.trans hs2)
    have et : t1 = t2 := Option.some.inj (ht1.symm.trans ht2)
    have ei : i1 = i2 := Option.some.inj (hi1.symm.trans hi2)
    subst eu es et ei
    refine ⟨rfl, ?_, rfl, rfl, rfl, rfl, rfl, ?_, rfl, rfl, rfl⟩
    · exact sameHeader_flattenHeaders _ _ (ro1.perm true) (ro2.perm true) _ hres 0 [] []
        (fun _ => rfl)
    · exact sameHeader_flattenHeaders _ _ (ro1.perm false) (ro2.perm false) _ hreq 0 [] []
        (fun _ => rfl)

/-- C17 (amended) at an event whose request header list holds the two-key mapping
`{"a": "1", "b": "2"}`: visiting its entries in either order sends identical calls. -/
theorem translation_deterministic_witness :
    (sends (handler storedOrder (headersBody
      (.array [.object [("a", .string "1"), ("b", .string "2")]])
      (.array [.object [("c", .string "3")]]))).effects).length = 1 ∧
    ∀ c1 ∈ sends (handler storedOrder (headersBody
        (.array [.object [("a", .string "1"), ("b", .string "2")]])
        (.array [.object [("c", .string "3")]]))).effects,
      ∀ c2 ∈ sends (handler reverseOrder (headersBody
        (.array [.object [("a", .string "1"), ("b", .string "2")]])
        (.array [.object [("c", .string "3")]]))).effects,
      sameCall c1 c2 :=
  ⟨by decide,
   (translation_deterministic storedOrder reverseOrder
      (headersBody (.array [.object [("a", .string "1"), ("b", .string "2")]])
        (.array [.object [("c", .string "3")]]))
      _ _ rfl (by decide) (by decide)).2.2.2⟩


/-! ## What the decoder accepts -/

theorem decodeString_error (cur : String) (v : JSON) :
    (decodeString cur v).2 = typeError .string v := by
  cases v <;> rfl

theorem decodeElems_error {α : Type} (dec : α → JSON → α × Bool) (zero : α)
    (bad : JSON → Bool) (hdec : ∀ cur x, (dec cur x).2 = bad x)
    (backing : List α) (items : List JSON) :
    (decodeElems dec zero backing items).2 = items.any bad := by
  induction items generalizing backing with
  | nil => rfl
  | cons x xs ih => simp [decodeElems, hdec, ih]

theorem decodeSlice_error {α : Type} (dec : α → JSON → α × Bool) (zero : α)
    (bad : JSON → Bool) (hdec : ∀ cur x, (dec cur x).2 = bad x)
    (cur spare : List α) (v : JSON) :
    (decodeSlice dec zero cur spare v).2 =
      match v with
      | .array items => items.any bad
      | .null => false
      | _ => true := by
  cases v with
  | array items =>
    cases items with
    | nil => rfl
    | cons x xs => simp [decodeSlice, decodeElems_error dec zero bad hdec]
  | _ => rfl

theorem decodeStringMembers_error (mp : GoMap) (members : List (String × JSON)) :
    (decodeStringMembers mp members).2 = members.any fun kv => !kv.2.isStringOrNull := by
  induction members generalizing mp with
  | nil => rfl
  | cons kv rest ih =>
    obtain ⟨k, v⟩ := kv
    simp only [decodeStringMembers, ih, List.any_cons]
    cases v <;> rfl

theorem decodeStringMap_error (cur : GoMap) (v : JSON) :
    (decodeStringMap cur v).2 = v.notStringMap := by
  cases v with
  | object members => exact decodeStringMembers_error cur members
  | _ => rfl

theorem decodeInterfaceMembers_error (mp members : List (String × JSON)) :
    (decodeInterfaceMembers mp members).2 = members.any fun kv => kv.2.numberError := by
  induction members generalizing mp with
  | nil => rfl
  | cons kv rest ih =>
    obtain ⟨k, v⟩ := kv
    simp only [decodeInterfaceMembers, ih, List.any_cons, decodeInterface]

theorem decodeInterfaceMap_error (cur : List (String × JSON)) (v : JSON) :
    (decodeInterfaceMap cur v).2 = typeError .interfaceMap v := by
  cases v with
  | object members => exact decodeInterfaceMembers_error cur members
  | _ => rfl

theorem decodeStringSlice_error (cur spare : List String) (v : JSON) :
    (decodeSlice decodeString "" cur spare v).2 = typeError .stringSlice v := by
  rw [decodeSlice_error decodeString "" (fun x => !x.isStringOrNull)
    (fun c x => by cases x <;> rfl)]
  cases v <;> rfl

theorem decodeMapSlice_error (cur spare : List GoMap) (v : JSON) :
    (decodeSlice decodeStringMap [] cur spare v).2 = typeError .mapSlice v := by
  rw [decodeSlice_error decodeStringMap [] JSON.notStringMap decodeStringMap_error]
  cases v <;> rfl

theorem decodeInterfaceSlice_error (cur spare : List JSON) (v : JSON) :
    (decodeSlice decodeInterface JSON.null cur spare v).2 = typeError .interfaceSlice v := by
  rw [decodeSlice_error decodeInterface JSON.null JSON.numberError (fun _ _ => rfl)]
  cases v <;> rfl

theorem decodeStringMap_error2 (cur : GoMap) (v : JSON) :
    (decodeStringMap cur v).2 = typeError .stringMap v := by
  rw [decodeStringMap_error]
  cases v <;> rfl

/-- Whether decoding a member saves an error depends on the member alone: it does when
the key names a field that the value does not fit. -/
theorem decodeMember_error (st : DecodeState) (key : String) (v : JSON) :
    (decodeMember st key v).2 = memberError key v := by
  unfold decodeMember memberError
  split
  all_goals first
    | (rename_i h
       rw [h]
       first
         | exact decodeString_error _ _
         | exact decodeStringSlice_error _ _ _
         | exact decodeMapSlice_error _ _ _
         | exact decodeInterfaceSlice_error _ _ _
         | exact decodeStringMap_error2 _ _
         | exact decodeInterfaceMap_error _ _)
    | (have hnone : fieldType (foldName key) = none := by
         unfold fieldType
         split <;> first | rfl | contradiction
       rw [hnone])

/-- A member whose key names no field is skipped. -/
theorem decodeMember_unknown (st : DecodeState) (key : String) (v : JSON)
    (hnone : fieldType (foldName key) = none) : decodeMember st key v = (st, false) := by
  unfold decodeMember
  split
  all_goals first
    | rfl
    | (rename_i h
       rw [h] at hnone
       exact absurd hnone (by decide))

theorem field_set_LogPolicy (m : Message) (a : String) (name : String)
    (hne : "log_policy" ≠ name) :
    ({ m with LogPolicy := a } : Message).field name = m.field name := by
  unfold Message.field
  split <;> first | rfl | exact absurd rfl hne

theorem field_set_Version (m : Message) (a : String) (name : String)
    (hne : "@version" ≠ name) :
    ({ m with Version := a } : Message).field name = m.field name := by
  unfold Message.field
  split <;> first | rfl | exact absurd rfl hne

theorem field_set_Tags (m : Message) (a : List String) (name : String)
    (hne : "tags" ≠ name) :
    ({ m with Tags := a } : Message).field name = m.field name := by
  unfold Message.field
  split <;> first | rfl | exact absurd rfl hne

theorem field_set_GatewayIp (m : Message) (a : String) (name : String)
    (hne : "gateway_ip" ≠ name) :
    ({ m with GatewayIp := a } : Message).field name = m.field name := by
  unfold Message.field
  split <;> first | rfl | exact absurd rfl hne

theorem field_set_UriPath (m : Message) (a : String) (name : String)
    (hne : "uri_path" ≠ name) :
    ({ m with UriPath := a } : Message).field name = m.field name := by
  unfold Message.field
  split <;> first | rfl | exact absurd rfl hne

theorem field_set_RequestMethod (m : Message) (a : String) (name : String)
    (hne : "request_method" ≠ name) :
    ({ m with RequestMethod := a } : Message).field name = m.field name := by
  unfold Message.field
  split <;> first | rfl | exact absurd rfl hne

theorem field_set_RequestProtocol (m : Message) (a : String) (name : String)
    (hne : "request_protocol" ≠ name) :
    ({ m with RequestProtocol := a } : Message).field name = m.field name := by
  unfold Message.field
  split <;> first | rfl | exact absurd rfl hne

theorem field_set_RequestHttpHeaders (m : Message) (a : List GoMap) (name : String)
    (hne : "request_http_headers" ≠ name) :
    ({ m with RequestHttpHeaders := a } : Message).field name = m.field name := by
  unfold Message.field
  split <;> first | rfl | exact absurd rfl hne

theorem field_set_RequestBody (m : Message) (a : String) (name : String)
    (hne : "request_body" ≠ name) :
    ({ m with RequestBody := a } : Message).field name = m.field name := by
  unfold Message.field
  split <;> first | rfl | exact absurd rfl hne

theorem field_set_Host (m : Message) (a : String) (name : String)
    (hne : "host" ≠ name) :
    ({ m with Host := a } : Message).field name = m.field name := by
  unfold Message.field
  split <;> first | rfl | exact absurd rfl hne

theorem field_set_HttpUserAgent (m : Message) (a : String) (name : String)
    (hne : "http_user_agent" ≠ name) :
    ({ m with HttpUserAgent := a } : Message).field name = m.field name := by
  unfold Message.field
  split <;> first | rfl | exact absurd rfl hne

theorem field_set_QueryString (m : Message) (a : String) (name : String)
    (hne : "query_string" ≠ name) :
    ({ m with QueryString := a } : Message).field name = m.field name := by
  unfold Message.field
  split <;> first | rfl | exact absurd rfl hne

theorem field_set_ClientIp (m : Message) (a : String) (name : String)
    (hne : "client_ip" ≠ name) :
    ({ m with ClientIp := a } : Message).field name = m.field name := by
  unfold Message.field
  split <;> first | rfl | exact absurd rfl hne

theorem field_set_ImmediateClientIp (m : Message) (a : String) (name : String)
    (hne : "immediate_client_ip" ≠ name) :
    ({ m with ImmediateClientIp := a } : Message).field name = m.field name := by
  unfold Message.field
  split <;> first | rfl | exact absurd rfl hne

theorem field_set_StatusCode (m : Message) (a : String) (name : String)
    (hne : "status_code" ≠ name) :
    ({ m with StatusCode := a } : Message).field name = m.field name := by
  unfold Message.field
  split <;> first | rfl | exact absurd rfl hne

theorem field_set_ResponseHttpHeaders (m : Message) (a : List GoMap) (name : String)
    (hne : "response_http_headers" ≠ name) :
    ({ m with ResponseHttpHeaders := a } : Message).field name = m.field name := by
  unfold Message.field
  split <;> first | rfl | exact absurd rfl hne

theorem field_set_ResponseBody (m : Message) (a : String) (name : String)
    (hne : "response_body" ≠ name) :
    ({ m with ResponseBody := a } : Message).field name = m.field name := by
  unfold Message.field
  split <;> first | rfl | exact absurd rfl hne

theorem field_set_TimeToServeRequest (m : Message) (a : String) (name : String)
    (hne : "time_to_serve_request" ≠ name) :
    ({ m with TimeToServeRequest := a } : Message).field name = m.field name := by
  unfold Message.field
  split <;> first | rfl | exact absurd rfl hne

theorem field_set_Datetime (m : Message) (a : String) (name : String)
    (hne : "datetime" ≠ name) :
    ({ m with Datetime := a } : Message).field name = m.field name := by
  unfold Message.field
  split <;> first | rfl | exact absurd rfl hne

theorem field_set_Timestamp (m : Message) (a : String) (name : String)
    (hne : "@timestamp" ≠ name) :
    ({ m with Timestamp := a } : Message).field name = m.field name := by
  unfold Message.field
  split <;> first | rfl | exact absurd rfl hne

theorem field_set_BytesSent (m : Message) (a : String) (name : String)
    (hne : "bytes_sent" ≠ name) :
    ({ m with BytesSent := a } : Message).field name = m.field name := by
  unfold Message.field
  split <;> first | rfl | exact absurd rfl hne

theorem field_set_BytesReceived (m : Message) (a : String) (name : String)
    (hne : "bytes_received" ≠ name) :
    ({ m with BytesReceived := a } : Message).field name = m.field name := by
  unfold Message.field
  split <;> first | rfl | exact absurd rfl hne

theorem field_set_TransactionId (m : Message) (a : String) (name : String)
    (hne : "transaction_id" ≠ name) :
    ({ m with TransactionId := a } : Message).field name = m.field name := by
  unfold Message.field
  split <;> first | rfl | exact absurd rfl hne

theorem field_set_GlobalTransactionId (m : Message) (a : String) (name : String)
    (hne : "global_transaction_id" ≠ name) :
    ({ m with GlobalTransactionId := a } : Message).field name = m.field name := by
  unfold Message.field
  split <;> first | rfl | exact absurd rfl hne

theorem field_set_LatencyInfo (m : Message) (a : List GoMap) (name : String)
    (hne : "latency_info" ≠ name) :
    ({ m with LatencyInfo := a } : Message).field name = m.field name := by
  unfold Message.field
  split <;> first | rfl | exact absurd rfl hne

theorem field_set_OpentracingInfo (m : Message) (a : List JSON) (name : String)
    (hne : "opentracing_info" ≠ name) :
    ({ m with OpentracingInfo := a } : Message).field name = m.field name := by
  unfold Message.field
  split <;> first | rfl | exact absurd rfl hne

theorem field_set_Headers (m : Message) (a : GoMap) (name : String)
    (hne : "headers" ≠ name) :
    ({ m with Headers := a } : Message).field name = m.field name := by
  unfold Message.field
  split <;> first | rfl | exact absurd rfl hne

theorem field_set_DomainName (m : Message) (a : String) (name : String)
    (hne : "domain_name" ≠ name) :
    ({ m with DomainName := a } : Message).field name = m.field name := by
  unfold Message.field
  split <;> first | rfl | exact absurd rfl hne

theorem field_set_EndpointUrl (m : Message) (a : String) (name : String)
    (hne : "endpoint_url" ≠ name) :
    ({ m with EndpointUrl := a } : Message).field name = m.field name := by
  unfold Message.field
  split <;> first | rfl | exact absurd rfl hne

theorem field_set_ApiId (m : Message) (a : String) (name : String)
    (hne : "api_id" ≠ name) :
    ({ m with ApiId := a } : Message).field name = m.field name := by
  unfold Message.field
  split <;> first | rfl | exact absurd rfl hne

theorem field_set_ApiName (m : Message) (a : String) (name : String)
    (hne : "api_name" ≠ name) :
    ({ m with ApiName := a } : Message).field name = m.field name := by
  unfold Message.field
  split <;> first | rfl | exact absurd rfl hne

theorem field_set_ApiVersion (m : Message) (a : String) (name : String)
    (hne : "api_version" ≠ name) :
    ({ m with ApiVersion := a } : Message).field name = m.field name := by
  unfold Message.field
  split <;> first | rfl | exact absurd rfl hne

theorem field_set_OrgId (m : Message) (a : String) (name : String)
    (hne : "org_id" ≠ name) :
    ({ m with OrgId := a } : Message).field name = m.field name := by
  unfold Message.field
  split <;> first | rfl | exact absurd rfl hne

theorem field_set_OrgName (m : Message) (a : String) (name : String)
    (hne : "org_name" ≠ name) :
    ({ m with OrgName := a } : Message).field name = m.field name := by
  unfold Message.field
  split <;> first | rfl | exact absurd rfl hne

theorem field_set_AppName (m : Message) (a : String) (name : String)
    (hne : "app_name" ≠ name) :
    ({ m with AppName := a } : Message).field name = m.field name := by
  unfold Message.field
  split <;> first | rfl | exact absurd rfl hne

theorem field_set_ProductName (m : Message) (a : String) (name : String)
    (hne : "product_name" ≠ name) :
    ({ m with ProductName := a } : Message).field name = m.field name := by
  unfold Message.field
  split <;> first | rfl | exact absurd rfl hne

theorem field_set_DeveloperOrgId (m : Message) (a : String) (name : String)
    (hne : "developer_org_id" ≠ name) :
    ({ m with DeveloperOrgId := a } : Message).field name = m.field name := by
  unfold Message.field
  split <;> first | rfl | exact absurd rfl hne

theorem field_set_DeveloperOrgName (m : Message) (a : String) (name : String)
    (hne : "developer_org_name" ≠ name) :
    ({ m with DeveloperOrgName := a } : Message).field name = m.field name := by
  unfold Message.field
  split <;> first | rfl | exact absurd rfl hne

theorem field_set_DeveloperOrgTitle (m : Message) (a : String) (name : String)
    (hne : "developer_org_title" ≠ name) :
    ({ m with DeveloperOrgTitle := a } : Message).field name = m.field name := by
  unfold Message.field
  split <;> first | rfl | exact absurd rfl hne

theorem field_set_ResourceId (m : Message) (a : String) (name : String)
    (hne : "resource_id" ≠ name) :
    ({ m with ResourceId := a } : Message).field name = m.field name := by
  unfold Message.field
  split <;> first | rfl | exact absurd rfl hne

theorem field_set_ResourcePath (m : Message) (a : String) (name : String)
    (hne : "resource_path" ≠ name) :
    ({ m with ResourcePath := a } : Message).field name = m.field name := by
  unfold Message.field
  split <;> first | rfl | exact absurd rfl hne

theorem field_set_PlanId (m : Message) (a : String) (name : String)
    (hne : "plan_id" ≠ name) :
    ({ m with PlanId := a } : Message).field name = m.field name := by
  unfold Message.field
  split <;> first | rfl | exact absurd rfl hne

theorem field_set_PlanName (m : Message) (a : String) (name : String)
    (hne : "plan_name" ≠ name) :
    ({ m with PlanName := a } : Message).field name = m.field name := by
  unfold Message.field
  split <;> first | rfl | exact absurd rfl hne

theorem field_set_CatalogId (m : Message) (a : String) (name : String)
    (hne : "catalog_id" ≠ name) :
    ({ m with CatalogId := a } : Message).field name = m.field name := by
  unfold Message.field
  split <;> first | rfl | exact absurd rfl hne

theorem field_set_CatalogName (m : Message) (a : String) (name : String)
    (hne : "catalog_name" ≠ name) :
    ({ m with CatalogName := a } : Message).field name = m.field name := by
  unfold Message.field
  split <;> first | rfl | exact absurd rfl hne

theorem field_set_ClientId (m : Message) (a : String) (name : String)
    (hne : "client_id" ≠ name) :
    ({ m with ClientId := a } : Message).field name = m.field name := by
  unfold Message.field
  split <;> first | rfl | exact absurd rfl hne

theorem field_set_Billing (m : Message) (a : List (String × JSON)) (name : String)
    (hne : "billing" ≠ name) :
    ({ m with Billing := a } : Message).field name = m.field name := by
  unfold Message.field
  split <;> first | rfl | exact absurd rfl hne

/-- Decoding a member leaves every field unchanged but the one its key names. -/
theorem decodeMember_field (st : DecodeState) (key : String) (v : JSON) (name : String)
    (hne : foldName key ≠ name) :
    (decodeMember st key v).1.m.field name = st.m.field name := by
  unfold decodeMember
  split
  · rename_i h; rw [h] at hne; exact field_set_LogPolicy _ _ _ hne
  · rename_i h; rw [h] at hne; exact field_set_Version _ _ _ hne
  · rename_i h; rw [h] at hne; exact field_set_Tags _ _ _ hne
  · rename_i h; rw [h] at hne; exact field_set_GatewayIp _ _ _ hne
  · rename_i h; rw [h] at hne; exact field_set_UriPath _ _ _ hne
  · rename_i h; rw [h] at hne; exact field_set_RequestMethod _ _ _ hne
  · rename_i h; rw [h] at hne; exact field_set_RequestProtocol _ _ _ hne
  · rename_i h; rw [h] at hne; exact field_set_RequestHttpHeaders _ _ _ hne
  · rename_i h; rw [h] at hne; exact field_set_RequestBody _ _ _ hne
  · rename_i h; rw [h] at hne; exact field_set_Host _ _ _ hne
  · rename_i h; rw [h] at hne; exact field_set_HttpUserAgent _ _ _ hne
  · rename_i h; rw [h] at hne; exact field_set_QueryString _ _ _ hne
  · rename_i h; rw [h] at hne; exact field_set_ClientIp _ _ _ hne
  · rename_i h; rw [h] at hne; exact field_set_ImmediateClientIp _ _ _ hne
  · rename_i h; rw [h] at hne; exact field_set_StatusCode _ _ _ hne
  · rename_i h; rw [h] at hne; exact field_set_ResponseHttpHeaders _ _ _ hne
  · rename_i h; rw [h] at hne; exact field_set_ResponseBody _ _ _ hne
  · rename_i h; rw [h] at hne; exact field_set_TimeToServeRequest _ _ _ hne
  · rename_i h; rw [h] at hne; exact field_set_Datetime _ _ _ hne
  · rename_i h; rw [h] at hne; exact field_set_Timestamp _ _ _ hne
  · rename_i h; rw [h] at hne; exact field_set_BytesSent _ _ _ hne
  · rename_i h; rw [h] at hne; exact field_set_BytesReceived _ _ _ hne
  · rename_i h; rw [h] at hne; exact field_set_TransactionId _ _ _ hne
  · rename_i h; rw [h] at hne; exact field_set_GlobalTransactionId _ _ _ hne
  · rename_i h; rw [h] at hne; exact field_set_LatencyInfo _ _ _ hne
  · rename_i h; rw [h] at hne; exact field_set_OpentracingInfo _ _ _ hne
  · rename_i h; rw [h] at hne; exact field_set_Headers _ _ _ hne
  · rename_i h; rw [h] at hne; exact field_set_DomainName _ _ _ hne
  · rename_i h; rw [h] at hne; exact field_set_EndpointUrl _ _ _ hne
  · rename_i h; rw [h] at hne; exact field_set_ApiId _ _ _ hne
  · rename_i h; rw [h] at hne; exact field_set_ApiName _ _ _ hne
  · rename_i h; rw [h] at hne; exact field_set_ApiVersion _ _ _ hne
  · rename_i h; rw [h] at hne; exact field_set_OrgId _ _ _ hne
  · rename_i h; rw [h] at hne; exact field_set_OrgName _ _ _ hne
  · rename_i h; rw [h] at hne; exact field_set_AppName _ _ _ hne
  · rename_i h; rw [h] at hne; exact field_set_ProductName _ _ _ hne
  · rename_i h; rw [h] at hne; exact field_set_DeveloperOrgId _ _ _ hne
  · rename_i h; rw [h] at hne; exact field_set_DeveloperOrgName _ _ _ hne
  · rename_i h; rw [h] at hne; exact field_set_DeveloperOrgTitle _ _ _ hne
  · rename_i h; rw [h] at hne; exact field_set_ResourceId _ _ _ hne
  · rename_i h; rw [h] at hne; exact field_set_ResourcePath _ _ _ hne
  · rename_i h; rw [h] at hne; exact field_set_PlanId _ _ _ hne
  · rename_i h; rw [h] at hne; exact field_set_PlanName _ _ _ hne
  · rename_i h; rw [h] at hne; exact field_set_CatalogId _ _ _ hne
  · rename_i h; rw [h] at hne; exact field_set_CatalogName _ _ _ hne
  · rename_i h; rw [h] at hne; exact field_set_ClientId _ _ _ hne
  · rename_i h; rw [h] at hne; exact field_set_Billing _ _ _ hne
  · rfl


theorem decodeMembers_error (st : DecodeState) (members : List (String × JSON)) :
    (decodeMembers st members).2 = members.any fun kv => memberError kv.1 kv.2 := by
  induction members generalizing st with
  | nil => rfl
  | cons kv rest ih =>
    obtain ⟨k, v⟩ := kv
    simp only [decodeMembers, ih, decodeMember_error, List.any_cons]

theorem decodeMembers_field (st : DecodeState) (members : List (String × JSON))
    (name : String) (h : ∀ kv ∈ members, foldName kv.1 ≠ name) :
    (decodeMembers st members).1.m.field name = st.m.field name := by
  induction members generalizing st with
  | nil => rfl
  | cons kv rest ih =>
    obtain ⟨k, v⟩ := kv
    simp only [decodeMembers]
    rw [ih _ (fun x hx => h x (by simp [hx]))]
    exact decodeMember_field st k v name (h (k, v) (by simp))

theorem decodeMembers_skip_unknown (st : DecodeState) (pre post : List (String × JSON))
    (key : String) (v : JSON) (hnone : fieldType (foldName key) = none) :
    decodeMembers st (pre ++ (key, v) :: post) = decodeMembers st (pre ++ post) := by
  induction pre generalizing st with
  | nil => simp [decodeMembers, decodeMember_unknown st key v hnone]
  | cons kv rest ih =>
    obtain ⟨k, w⟩ := kv
    show decodeMembers st ((k, w) :: (rest ++ (key, v) :: post)) =
      decodeMembers st ((k, w) :: (rest ++ post))
    simp only [decodeMembers, ih]

/-- C15 fails as stated: the object `{"status_code": 404}` is valid JSON with an object
at the top, and `jsonBytes` returns an error for it (a number cannot be decoded into the
Go `string` field). -/
theorem numeric_status_code_is_decode_error :
    (jsonBytes (.json (.object [("status_code", .number ⟨false, 404, 0⟩)]))).2 = true := by
  decide

/-- C15, amended: decoding a JSON object never fails because of unknown or missing
fields.  A member whose key names no field of `Message` is ignored: the result is the
same without it.  A field that no member names decodes to its zero value (empty string,
empty list, absent).  And `jsonBytes` returns an error exactly when the body cannot be
read, is not valid JSON, has a top-level value that is neither an object nor `null`, or
is an object one of whose members names a field (up to the case folding of keys) whose
Go type its value does not fit. -/
theorem decode_fails_only_on_type_errors :
    (∀ (pre post : List (String × JSON)) (key : String) (v : JSON),
      fieldType (foldName key) = none →
      jsonBytes (.json (.object (pre ++ (key, v) :: post))) =
        jsonBytes (.json (.object (pre ++ post)))) ∧
    (∀ (members : List (String × JSON)) (name : String),
      (∀ kv ∈ members, foldName kv.1 ≠ name) →
      (jsonBytes (.json (.object members))).1.field name = ({} : Message).field name) ∧
    (∀ body : Body, (jsonBytes body).2 =
      match body with
      | .readError => true
      | .invalid => true
      | .json v => decodeError v) := by
  refine ⟨?_, ?_, ?_⟩
  · intro pre post key v hnone
    simp only [jsonBytes, unmarshal, decodeMembers_skip_unknown _ pre post key v hnone]
  · intro members name h
    simp only [jsonBytes, unmarshal]
    exact decodeMembers_field {} members name h
  · intro body
    cases body with
    | readError => rfl
    | invalid => rfl
    | json v =>
      cases v with
      | object members => simp only [jsonBytes, unmarshal, decodeError, decodeMembers_error]
      | _ => rfl

/-- C15 (amended) at concrete bodies: an unknown member changes nothing, a missing
`status_code` decodes to `""`, the top-level values `null` and `{}` decode without
error, and a top-level array, a `tags` member holding a string and a `billing` member
holding a number beyond `float64` are errors. -/
theorem decode_fails_only_on_type_errors_witness :
    jsonBytes (.json (.object ([("log_policy", .string "payload")] ++
        ("unknown", .number ⟨false, 1, 0⟩) :: [("host", .string "h")]))) =
      jsonBytes (.json (.object ([("log_policy", .string "payload")] ++
        [("host", .string "h")]))) ∧
    (jsonBytes (.json (.object [("log_policy", .string "payload")]))).1.field "status_code" =
      ({} : Message).field "status_code" ∧
    (jsonBytes (.json .null)).2 = false ∧
    (jsonBytes (.json (.object []))).2 = false ∧
    (jsonBytes (.json (.array []))).2 = true ∧
    (jsonBytes (.json (.object [("Tags", .string "a")]))).2 = true ∧
    (jsonBytes (.json (.object [("billing",
      .object [("amount", .number ⟨false, 1, 400⟩)])]))).2 = true :=
  ⟨decode_fails_only_on_type_errors.1 [("log_policy", .string "payload")]
      [("host", .string "h")] "unknown" (.number ⟨false, 1, 0⟩) (by decide),
   decode_fails_only_on_type_errors.2.1 [("log_policy", .string "payload")] "status_code"
      (by decide),
   by decide, by decide, by decide, by decide,
   (decode_fails_only_on_type_errors.2.2 _).trans (by
      set_option exponentiation.threshold 2000 in decide)⟩

end Translator
